import Mathlib

/-!
Verification of the FATE-Flow model-management layer
(`fate_flow/pipelined_model/migrate_model.py` and `fate_flow/utils/model_utils.py`)
against its natural-language specification.

The Python source is shallowly embedded: dictionaries become association
lists, Python exceptions become `Except String`, the relational store and
the file store become explicit state (`Store`), and external collaborators
(remote sync, the model-migration tool, the filesystem root) become an
explicit environment (`MigrationEnv`).  Functions keep their Python names.
-/

namespace FateFlow

/-! ## Generic helpers: Python-style association lists (dicts) -/

/-- Membership test on a list of strings (Python `in`). -/
def memb (k : String) : List String → Bool
  | [] => false
  | x :: xs => k == x || memb k xs

/-- Dict lookup on an association list (leftmost binding wins, as in a
Python dict whose keys are unique). -/
def aget {α : Type} (l : List (String × α)) (k : String) : Option α :=
  match l with
  | [] => none
  | kv :: rest => if kv.1 == k then some kv.2 else aget rest k

/-- Python `d[k] = v`: update the binding in place if the key is present,
otherwise append it (insertion order is preserved, as in a Python dict). -/
def aset {α : Type} (l : List (String × α)) (k : String) (v : α) : List (String × α) :=
  if l.any (fun kv => kv.1 == k) then
    l.map (fun kv => if kv.1 == k then (k, v) else kv)
  else l ++ [(k, v)]

/-! ## Character-list split machinery (Python `str.split` / `str.rsplit`) -/

/-- Split a character list at every occurrence of `c` (Python
`s.split(c)` with no maxsplit; always returns at least one part). -/
def splitCh (c : Char) : List Char → List (List Char)
  | [] => [[]]
  | x :: xs =>
    let r := splitCh c xs
    if x = c then [] :: r
    else
      match r with
      | [] => [[x]]
      | y :: ys => (x :: y) :: ys

/-- Join character lists with the separator `c` (inverse of `splitCh`). -/
def joinCh (c : Char) : List (List Char) → List Char
  | [] => []
  | [x] => x
  | x :: xs => x ++ c :: joinCh c xs

/-- Python `s.split(c, 2)`: at most two splits, counted from the left. -/
def pySplit2 (c : Char) (l : List Char) : List (List Char) :=
  let ps := splitCh c l
  if ps.length ≤ 3 then ps else ps.take 2 ++ [joinCh c (ps.drop 2)]

/-- Python `s.rsplit(c, 2)`: at most two splits, counted from the right. -/
def pyRsplit2 (c : Char) (l : List Char) : List (List Char) :=
  let ps := splitCh c l
  if ps.length ≤ 3 then ps else [joinCh c (ps.take (ps.length - 2))] ++ ps.drop (ps.length - 2)

/-- Glob `*`-wildcard matching, structurally recursive on a fuel bound
(every recursive call shrinks `p.length + s.length`, so the wrapper's
fuel is never exhausted). -/
def globMatchF : Nat → List Char → List Char → Bool
  | 0, _, _ => false
  | fuel + 1, p, s =>
    match p, s with
    | [], [] => true
    | [], _ :: _ => false
    | p0 :: ps, [] => (p0 == '*') && globMatchF fuel ps []
    | p0 :: ps, c :: s2 =>
      if p0 = '*' then globMatchF fuel ps (c :: s2) || globMatchF fuel (p0 :: ps) s2
      else p0 == c && globMatchF fuel ps s2

/-- Glob `*`-wildcard match of a pattern against one path segment
(models the `glob.glob` matching used by `query_model_info_from_file`;
`*` matches any character sequence within the segment, every other
character matches itself). -/
def globMatch (p s : List Char) : Bool :=
  globMatchF (p.length + s.length + 1) p s

/-! ## `model_utils.all_party_key`, `gen_party_model_id`, `gen_model_id` -/

/-- Lexicographic comparison of character lists by code point (the order
Python's `sorted` uses on strings). -/
def chListLe : List Char → List Char → Bool
  | [], _ => true
  | _ :: _, [] => false
  | a :: as, b :: bs => if a < b then true else if b < a then false else chListLe as bs

/-- Python's string order, as an executable Boolean. -/
def pyStrLe (a b : String) : Bool := chListLe a.data b.data

/-- Python `sorted` on a list of strings. -/
def sortStrings (l : List String) : List String :=
  List.insertionSort (fun a b => pyStrLe a b = true) l

/-- A Python value passed as the `all_party` argument: a roles dict
mapping role names to party-id lists, a (non-dict) string, or `None`. -/
inductive AllParty where
  | adict : List (String × List Int) → AllParty
  | astr : String → AllParty
  | anone : AllParty
deriving DecidableEq

/-- Python truthiness of an `all_party` argument (`{}`, `""` and `None`
are falsy). -/
def pyTruthy : AllParty → Bool
  | .adict d => !d.isEmpty
  | .astr s => !(s == "")
  | .anone => false

/-- Roles-dict lookup used by `all_party_key` (`all_party[role_name]`;
the key always comes from the dict itself, so the default is unreachable). -/
def dGetParties (d : List (String × List Int)) (k : String) : List Int :=
  (aget d k).getD []

/-- The `'%s-%s' % (role_name, '_'.join([str(p) for p in sorted(set(...))]))`
fragment of `all_party_key`: the party ids are deduplicated, sorted as
integers, and only then rendered as strings. -/
def rolePartyKey (role_name : String) (ps : List Int) : String :=
  role_name ++ "-" ++ "_".intercalate ((ps.dedup.insertionSort (· ≤ ·)).map toString)

/-- `model_utils.all_party_key`: `'all'` for a falsy argument, the joined
role/party key for a dict, `None` (here `none`) for any other value. -/
def all_party_key (ap : AllParty) : Option String :=
  if !pyTruthy ap then some "all"
  else
    match ap with
    | .adict d =>
      some ("#".intercalate
        ((sortStrings (d.map Prod.fst)).map
          (fun rn => rolePartyKey rn (dGetParties d rn))))
    | _ => none

/-- `model_utils.gen_party_model_id`:
`'#'.join([role, str(party_id), model_id]) if model_id else None`
(the party id is passed here already rendered by `str`). -/
def gen_party_model_id (model_id role party_id : String) : Option String :=
  if model_id == "" then none
  else some (role ++ "#" ++ party_id ++ "#" ++ model_id)

/-- `model_utils.gen_model_id`: `'#'.join([all_party_key(all_party), "model"])`.
When `all_party_key` yields Python `None` the join raises a `TypeError`,
modelled by `none`. -/
def gen_model_id (ap : AllParty) : Option String :=
  (all_party_key ap).map (fun k => k ++ "#model")

/-! ## `migrate_model.compare_roles` -/

/-- An atomic entry of a per-role list (party ids are integers or strings). -/
inductive PAtom where
  | i : Int → PAtom
  | s : String → PAtom
deriving DecidableEq

/-- A value of a roles dict as `compare_roles` can receive it: a list of
atoms, or a (non-list) string. -/
inductive RoleVal where
  | list : List PAtom → RoleVal
  | str : String → RoleVal
deriving DecidableEq

/-- Python `str(item)` for a per-role list item. -/
def pAtomStr : PAtom → String
  | .i n => toString n
  | .s s => s

/-- Python `len` of a per-role value (defined for lists and strings). -/
def roleValLen : RoleVal → Nat
  | .list xs => xs.length
  | .str s => s.length

/-- Python `isinstance(v, list)`. -/
def roleValIsList : RoleVal → Bool
  | .list _ => true
  | .str _ => false

/-- `[str(item) for item in v]`: iterating a list yields its items,
iterating a string yields its one-character substrings. -/
def roleValStrings : RoleVal → List String
  | .list xs => xs.map pAtomStr
  | .str s => s.toList.map (fun c => String.mk [c])

/-- A roles dict (association list with unique keys). -/
abbrev RolesDict := List (String × RoleVal)

/-- Python `dict.keys() == dict.keys()`: set-equality of the key views. -/
def dictKeysEq (a b : RolesDict) : Bool :=
  (a.map Prod.fst).all (fun k => memb k (b.map Prod.fst)) &&
  (b.map Prod.fst).all (fun k => memb k (a.map Prod.fst))

/-- Roles-dict lookup (`run_time_conf_roles[key]`; under the key-set
equality guard the default is unreachable). -/
def dGetRole (d : RolesDict) (k : String) : RoleVal :=
  (aget d k).getD (.list [])

/-- Boolean set-equality of two string lists
(`set(xs) == set(ys)` in Python). -/
def setEqBool (xs ys : List String) : Bool :=
  xs.all (fun x => memb x ys) && ys.all (fun y => memb y xs)

/-- The error message raised by `compare_roles` (both raise sites use
the same text). -/
def rolesMismatchMsg : String :=
  "The structure of roles data of local configuration is different from model runtime configuration\x27s. Migration aborting."

/-- `migrate_model.compare_roles`: raises when the key sets differ or the
format check fails; otherwise returns the Boolean `verify_equality`. -/
def compare_roles (request run_time : RolesDict) : Except String Bool :=
  if dictKeysEq request run_time then
    let verify_format := request.all (fun kv =>
      roleValLen kv.2 == roleValLen (dGetRole run_time kv.1) && roleValIsList kv.2)
    let verify_equality := request.all (fun kv =>
      setEqBool (roleValStrings kv.2) (roleValStrings (dGetRole run_time kv.1)))
    if !verify_format then .error rolesMismatchMsg
    else .ok verify_equality
  else .error rolesMismatchMsg

/-! ## `compare_version` (external collaborator) -/

/-- Decimal parse of a version component (`int(s)`, `none` when the
component is empty or not all digits). -/
def chToNat? (l : List Char) : Option Nat :=
  if l.isEmpty then none
  else l.foldl
    (fun acc? c => acc?.bind (fun acc =>
      if c.isDigit then some (acc * 10 + (c.toNat - '0'.toNat)) else none))
    (some 0)

/-- Numeric components of a dotted version string. -/
def versionNums (v : String) : List Nat :=
  (splitCh '.' v.data).map (fun s => (chToNat? s).getD 0)

/-- Lexicographic comparison of version component lists (missing
components count as zero). -/
def verListCmp : List Nat → List Nat → Ordering
  | [], b => if b.all (fun x => x == 0) then .eq else .lt
  | a :: as, [] => if a = 0 then verListCmp as [] else .gt
  | a :: as, b :: bs =>
    if a < b then .lt else if b < a then .gt else verListCmp as bs

/-- Modelled from the spec: `compare_version` (from
`fate_flow.utils.base_utils`, not part of src) compares two dotted
version strings numerically; the spec gates migration behaviour on
"the blob's FATE version is greater than 1.5.0", rendered by the code as
`compare_version(v, '1.5.0') == 'gt'`. -/
def compare_version (v ref : String) : String :=
  match verListCmp (versionNums v) (versionNums ref) with
  | .gt => "gt"
  | .lt => "lt"
  | .eq => "eq"

/-! ## Data model: pipeline blobs, the relational store, the file store -/

/-- An initiator dict (`{"role": ..., "party_id": ...}`). -/
structure Initiator where
  role : String
  party_id : String
deriving DecidableEq

/-- The deserialized `train_runtime_conf` of a pipeline blob: its roles
dict, its initiator, and the model id/version slot managed by
`JobRuntimeConfigAdapter`. -/
structure TrainConf where
  role : List (String × List Int)
  initiator : Initiator
  job_model_id : String
  job_model_version : String
deriving DecidableEq

/-- A value stored in a model-info dict or a relational-store row. -/
inductive IVal where
  | s : String → IVal
  | n : Int → IVal
  | roles : List (String × List Int) → IVal
  | conf : TrainConf → IVal
deriving DecidableEq

/-- A row of the `MachineLearningModelInfo` table, as a field dict. -/
abbrev DbRow := List (String × IVal)

/-- A reconstructed model-info dict. -/
abbrev ModelInfo := List (String × IVal)

/-- The serialized pipeline blob bundled with a model version
(the protobuf read by `read_pipeline_model`). -/
structure PipelineBlob where
  model_id : String
  model_version : String
  initiator_role : String
  initiator_party_id : String
  fate_version : String
  train_runtime_conf : TrainConf
deriving DecidableEq

/-- A `PipelineComponentMeta` row for one component model of a stored model. -/
structure MetaRow where
  f_component_name : String
  f_component_module_name : String
  f_model_alias : String
  f_run_parameters : String
deriving DecidableEq

/-- Modelled from the spec: the content of one model directory of the
local file cache (`pipelined_model.PipelinedModel` is not part of src).
`valid` is `PipelinedModel.exists()`; `components` maps
`(component_name, model_alias)` to
`(component_module_name, buffer, run_parameters)`. -/
structure SavedModel where
  valid : Bool := true
  meta : List MetaRow := []
  components : List ((String × String) × (String × String × String)) := []
  pipeline : Option PipelineBlob := none
  size : Nat := 0
  packaged : Bool := false
  importConfig : Bool := false
deriving DecidableEq

/-- The two external stores: the relational `MachineLearningModelInfo`
table and the `model_local_cache` file store keyed by
`(party_model_id, model_version)`. -/
structure Store where
  db : List DbRow
  files : List ((String × String) × SavedModel)
deriving DecidableEq

/-- A database error surfaced by an insert (`peewee.IntegrityError`
carries a numeric code; 1062 is the MySQL duplicate-key code). -/
inductive DbErr where
  | integrity : Int → String → DbErr
  | other : String → DbErr
deriving DecidableEq

/-- The external collaborators of the two modules: settings, the
filesystem root, the clock, the remote model store, the model-migration
tool, database insert faults, and `os.path.abspath`. -/
structure MigrationEnv where
  enableModelStore : Bool
  rootDir : String
  currentTime : Int
  remoteExists : String → String → String → String → Bool
  remoteModel : String → String → String → String → SavedModel
  migrateBuffer : String → String → List Int → List Int → List Int → List Int →
    Option (List Int) → Option (List Int) → String
  insertFault : DbRow → Option DbErr
  abspath : String → String

/-- Look up a model directory in the file store. -/
def getEntry (s : Store) (pmid ver : String) : Option SavedModel :=
  (s.files.find? (fun e => e.1.1 == pmid && e.1.2 == ver)).map Prod.snd

/-- Write a model directory in the file store (replacing it if present,
appending it otherwise). -/
def setEntry (s : Store) (pmid ver : String) (m : SavedModel) : Store :=
  { s with files :=
      if s.files.any (fun e => e.1.1 == pmid && e.1.2 == ver) then
        s.files.map (fun e => if e.1.1 == pmid && e.1.2 == ver then ((pmid, ver), m) else e)
      else s.files ++ [((pmid, ver), m)] }

/-- `PipelinedModel(...).exists()`. -/
def modelExists (s : Store) (pmid ver : String) : Bool :=
  ((getEntry s pmid ver).map SavedModel.valid).getD false

/-- `PipelinedModel.read_component_model(component_name, model_alias)`. -/
def readComponentModel (s : Store) (pmid ver name malias : String) :
    Option (String × String × String) :=
  (getEntry s pmid ver).bind (fun m =>
    (m.components.find? (fun c => c.1.1 == name && c.1.2 == malias)).map Prod.snd)

/-- `PipelinedModel.save_component_model(...)`. -/
def saveComponentModel (s : Store) (pmid ver name module malias buffer runParameters : String) :
    Store :=
  let cur := (getEntry s pmid ver).getD {}
  setEntry s pmid ver
    { cur with
      valid := true,
      components :=
        if cur.components.any (fun c => c.1.1 == name && c.1.2 == malias) then
          cur.components.map (fun c =>
            if c.1.1 == name && c.1.2 == malias then ((name, malias), (module, buffer, runParameters)) else c)
        else cur.components ++ [((name, malias), (module, buffer, runParameters))] }

/-- `PipelinedModel.read_pipeline_model()`. -/
def readPipelineModel (s : Store) (pmid ver : String) : Option PipelineBlob :=
  (getEntry s pmid ver).bind SavedModel.pipeline

/-- `PipelinedModel.save_pipeline_model(...)`. -/
def savePipelineModel (s : Store) (pmid ver : String) (blob : PipelineBlob) : Store :=
  let cur := (getEntry s pmid ver).getD {}
  setEntry s pmid ver { cur with valid := true, pipeline := some blob }

/-- `PipelinedModel.gen_model_import_config()`. -/
def genModelImportConfig (s : Store) (pmid ver : String) : Store :=
  let cur := (getEntry s pmid ver).getD {}
  setEntry s pmid ver { cur with importConfig := true }

/-- `PipelinedModel.packaging_model()`. -/
def packagingModel (s : Store) (pmid ver : String) : Store :=
  let cur := (getEntry s pmid ver).getD {}
  setEntry s pmid ver { cur with packaged := true }

/-- Modelled from the spec: the archive path of a packaged model
(`PipelinedModel.archive_model_file_path`, not part of src), a
deterministic function of the model identity. -/
def archiveModelFilePath (pmid ver : String) : String :=
  pmid ++ "_" ++ ver ++ ".zip"

/-! ## Relational-store rows and `save_model_info` -/

/-- Modelled from the spec: the column names of the
`MachineLearningModelInfo` table (`fate_flow.db.db_models` is not part of
src; the spec describes the table as keyed by
(role, party_id, model_id, model_version) with free-form additional
columns). -/
def MLModelFields : List String :=
  ["f_role", "f_party_id", "f_model_id", "f_model_version",
   "f_job_id", "f_create_time", "f_update_time", "f_size", "f_fate_version",
   "f_train_runtime_conf", "f_runtime_conf", "f_roles",
   "f_initiator_role", "f_initiator_party_id", "f_parent",
   "f_archive_from_ip", "f_train_dsl", "f_dsl"]

/-- The attribute-copy loop of `save_model_info`: starting from the
`f_create_time` assignment, each item of `model_info` is stored under
`f_{k}` when that is a column, else under `k` when that is a column,
else dropped. -/
def mlmodelRow (t : Int) (info : ModelInfo) : DbRow :=
  info.foldl
    (fun row kv =>
      if memb ("f_" ++ kv.1) MLModelFields then aset row ("f_" ++ kv.1) kv.2
      else if memb kv.1 MLModelFields then aset row kv.1 kv.2
      else row)
    [("f_create_time", .n t)]

/-- The unique key of a row: (role, party_id, model_id, model_version). -/
def rowIdentity (r : DbRow) : Option IVal × Option IVal × Option IVal × Option IVal :=
  (aget r "f_role", aget r "f_party_id", aget r "f_model_id", aget r "f_model_version")

/-- `model.save(force_insert=True)`: an injected fault if the environment
provides one, a duplicate-key `IntegrityError` (code 1062) if the unique
key is already present, a successful single-row insert otherwise. -/
def dbInsert (env : MigrationEnv) (db : List DbRow) (r : DbRow) : Except DbErr (List DbRow) :=
  match env.insertFault r with
  | some err => .error err
  | none =>
    if db.any (fun r0 => rowIdentity r0 == rowIdentity r) then
      .error (.integrity 1062 "Duplicate entry")
    else .ok (db ++ [r])

/-- `model_utils.save_model_info`: inserts the row with `force_insert`;
an `IntegrityError` with code 1062 is logged and suppressed (returning
Python `None`, here `none`), every other error propagates.  The remote
upload and the service-registry call are outward effects that do not
touch the two stores. -/
def save_model_info (env : MigrationEnv) (s : Store) (info : ModelInfo) :
    Except String (Option DbRow × Store) :=
  let row := mlmodelRow env.currentTime info
  match dbInsert env s.db row with
  | .ok db1 => .ok (some row, { s with db := db1 })
  | .error (.integrity code msg) =>
    if code != 1062 then .error msg
    else .ok (none, s)
  | .error (.other msg) => .error msg

/-! ## `gather_model_info_data` and the file-store query -/

/-- `model_utils.gather_model_info_data` (called without extra kwargs in
this repository): rebuild the model-info dict from the pipeline blob's
fields, then overlay the computed entries; fields of a blob older than
FATE 1.5.1 are backfilled from the train runtime conf. -/
def gather_model_info_data (sm : SavedModel) (blob : PipelineBlob)
    (local_role local_party_id : String) : ModelInfo :=
  let base : ModelInfo := [
    ("f_model_id", .s blob.model_id),
    ("f_model_version", .s blob.model_version),
    ("f_initiator_role", .s blob.initiator_role),
    ("f_initiator_party_id", .s blob.initiator_party_id),
    ("f_fate_version", .s blob.fate_version),
    ("f_train_runtime_conf", .conf blob.train_runtime_conf)]
  let i1 := aset base "f_job_id" (.s blob.model_version)
  let i2 := aset i1 "f_role" (.s local_role)
  let i3 := aset i2 "f_party_id" (.s local_party_id)
  let i4 := aset i3 "f_runtime_conf" (.conf blob.train_runtime_conf)
  let i5 := aset i4 "f_size" (.n (Int.ofNat sm.size))
  if compare_version blob.fate_version "1.5.1" == "lt" then
    let i6 := aset i5 "f_roles" (.roles blob.train_runtime_conf.role)
    let i7 := aset i6 "f_initiator_role" (.s blob.train_runtime_conf.initiator.role)
    aset i7 "f_initiator_party_id" (.s blob.train_runtime_conf.initiator.party_id)
  else i5

/-- The CPython error text raised when a dict is resized while an
iterator over it is advanced. -/
def dictChangedMsg : String := "dictionary changed size during iteration"

/-- The `for k, v in model_info.items(): if k not in query_filters: del
model_info[k]` loop: CPython's dict iterator records the dict's size and
raises `RuntimeError` on the next advance after any resize.  `n0` is the
recorded size, the first list the items still to be visited, the second
the current dict. -/
def iterDel (query_filters : List String) (n0 : Nat) :
    List (String × IVal) → List (String × IVal) → Except String (List (String × IVal))
  | [], cur => if cur.length == n0 then .ok cur else .error dictChangedMsg
  | kv :: rest, cur =>
    if cur.length != n0 then .error dictChangedMsg
    else iterDel query_filters n0 rest
      (if memb kv.1 query_filters then cur else cur.filter (fun e => !(e.1 == kv.1)))

/-- The directory pattern `{role}#{party_id}#{model_id}` passed to glob. -/
def pmidPattern (model_id role party_id : String) : String :=
  role ++ "#" ++ party_id ++ "#" ++ model_id

/-- The glob path `{root}/{party_model_id}/{model_version}`. -/
def mkPath (root pmid ver : String) : String :=
  root ++ "/" ++ pmid ++ "/" ++ ver

/-- The `fp.rsplit('/', 2)` / `party_model_id.split('#', 2)` destructuring
of a found path; `none` models the `ValueError` of a failed unpacking. -/
def parsePath (fp : String) : Option (String × String × String × String) :=
  match pyRsplit2 '/' fp.data with
  | [_, pmid, ver] =>
    match pySplit2 '#' pmid with
    | [r, p, m] => some (String.mk r, String.mk p, String.mk m, String.mk ver)
    | _ => none
  | _ => none

/-- The file-store entries whose path matches the glob pattern. -/
def matchingFiles (model_id model_version role party_id : String)
    (files : List ((String × String) × SavedModel)) :
    List ((String × String) × SavedModel) :=
  files.filter (fun e =>
    globMatch (pmidPattern model_id role party_id).data e.1.1.data &&
    globMatch model_version.data e.1.2.data)

/-- The `for fp in fp_list` loop body of `query_model_info_from_file`:
parse the path, skip entries whose model does not exist, gather the info
dict, backfill it best-effort (any backfill error is logged and
swallowed at this call site), then apply the filter-deletion loop. -/
def fromFileLoop (env : MigrationEnv) (query_filters : List String) (save_to_db : Bool) :
    List ((String × String) × SavedModel) → Store → List ModelInfo →
    (Except String (List ModelInfo)) × Store
  | [], s, acc => (.ok acc, s)
  | e :: rest, s, acc =>
    match parsePath (mkPath env.rootDir e.1.1 e.1.2) with
    | none => (.error "not enough values to unpack (expected 3)", s)
    | some (role, party_id, _, model_version) =>
      if !e.2.valid then fromFileLoop env query_filters save_to_db rest s acc
      else
        match e.2.pipeline with
        | none => (.error ("Model " ++ e.1.1 ++ " " ++ model_version ++ " pipeline file not found."), s)
        | some blob =>
          let info := gather_model_info_data e.2 blob role party_id
          let s1 := if save_to_db then
              match save_model_info env s info with
              | .ok r => r.2
              | .error _ => s
            else s
          match (if query_filters.isEmpty then .ok info
                 else iterDel query_filters info.length info info) with
          | .error err => (.error err, s1)
          | .ok info2 => fromFileLoop env query_filters save_to_db rest s1 (acc ++ [info2])

/-- `model_utils.query_model_info_from_file`. -/
def query_model_info_from_file (model_id model_version role party_id : String)
    (query_filters : List String) (save_to_db : Bool) (env : MigrationEnv) (s : Store) :
    (Except String (Nat × String × List ModelInfo)) × Store :=
  match fromFileLoop env query_filters save_to_db
      (matchingFiles model_id model_version role party_id s.files) s [] with
  | (.error e, s1) => (.error e, s1)
  | (.ok models, s1) =>
    if models.isEmpty then
      (.ok (100, "Query model info failed, cannot find model from local model files.", []), s1)
    else (.ok (0, "Query model info from local model success.", models), s1)

/-! ## The relational-store query and the combined query -/

/-- The keyword arguments of `query_model_info` that become `where`
conditions of the relational query and glob components of the file query. -/
structure QueryParams where
  model_id : Option String := none
  model_version : Option String := none
  role : Option String := none
  party_id : Option String := none
  query_filters : List String := []

/-- The `getattr(MLModel, f_k) == v` conditions built from the kwargs. -/
def condList (p : QueryParams) : List (String × IVal) :=
  [("f_model_id", p.model_id), ("f_model_version", p.model_version),
   ("f_role", p.role), ("f_party_id", p.party_id)].filterMap
    (fun kv => kv.2.map (fun v => (kv.1, IVal.s v)))

/-- `model_utils.query_model_info_from_db`: filter the table by the
conditions, project onto the requested columns (all columns when the
projection list is empty), and report retcode 100 on an empty result. -/
def query_model_info_from_db (p : QueryParams) (query_filters : List String)
    (db : List DbRow) : Nat × String × List ModelInfo :=
  let conditions := condList p
  let filters := (query_filters.map (fun k => "f_" ++ k)).filter (fun k => memb k MLModelFields)
  let rows := db.filter (fun r => conditions.all (fun c => aget r c.1 == some c.2))
  let models := rows.map (fun r => if filters.isEmpty then r else r.filter (fun kv => memb kv.1 filters))
  if models.isEmpty then (100, "Query model info failed, cannot find model from db.", [])
  else (0, "Query model info from db success.", models)

/-- The combined-miss message of `query_model_info`. -/
def bothMissMsg : String :=
  "Query model info failed, cannot find model from db and local model files. Try use both model id and model version to query model info from local models."

/-- `model_utils.query_model_info`: unless `file_only`, try the
relational store and return its result unchanged on retcode 0; otherwise
scan the file store (with backfill enabled exactly when the relational
store was tried), and report retcode 100 when both miss. -/
def query_model_info (file_only : Bool) (p : QueryParams) (env : MigrationEnv) (s : Store) :
    (Except String (Nat × String × List ModelInfo)) × Store :=
  let query_filters := p.query_filters.dedup
  let dbres := if file_only then none
    else some (query_model_info_from_db p query_filters s.db)
  match dbres with
  | some (0, retmsg, data) => (.ok (0, retmsg, data), s)
  | _ =>
    match query_model_info_from_file (p.model_id.getD "*") (p.model_version.getD "*")
        (p.role.getD "*") (p.party_id.getD "*") query_filters (!file_only) env s with
    | (.ok (0, m, d), s1) => (.ok (0, m, d), s1)
    | (.ok _, s1) => (.ok (100, bothMissMsg, []), s1)
    | (.error e, s1) => (.error e, s1)

/-! ## `migrate_model.migration` -/

/-- The migration request (`config_data`), with the dict paths
`config_data['local']['role']`, `['local']['party_id']`,
`['local']['migrate_party_id']` flattened into fields. -/
structure MigrateConfig where
  model_id : String
  model_version : String
  local_role : String
  local_party_id : Int
  migrate_party_id : Int
  unify_model_version : String
  role : List (String × List Int)
  migrate_role : List (String × List Int)
  migrate_initiator : Initiator
deriving DecidableEq

/-- The observable effects of one migration run, in order. -/
inductive MEvent where
  | syncDownload (role party mid ver : String)
  | dbCheck
  | saveComponent (pmid ver name : String)
  | savePipeline (pmid ver : String)
  | saveInfo
  | packaging (pmid ver : String)
deriving DecidableEq

/-- Events that write a component model artifact or a pipeline blob. -/
def isSaveEvent : MEvent → Bool
  | .saveComponent _ _ _ => true
  | .savePipeline _ _ => true
  | _ => false

/-- The data of a successful migration, from which both the success
message and the returned dict are built. -/
structure MigOk where
  adapterModelId : String
  partyModelId : String
  modelVersion : String
  archivePath : String
deriving DecidableEq

/-- The source model's party model id
(`gen_party_model_id(model_id, local_role, local_party_id)`; the `None`
of a falsy model id is flattened to `""`, an id that never exists). -/
def srcPartyModelId (cfg : MigrateConfig) : String :=
  (gen_party_model_id cfg.model_id cfg.local_role (toString cfg.local_party_id)).getD ""

/-- The migrated model's plain model id, `gen_model_id(migrate_role)`. -/
def newModelId (cfg : MigrateConfig) : String :=
  (gen_model_id (.adict cfg.migrate_role)).getD ""

/-- The migrated model's party model id. -/
def newPartyModelId (cfg : MigrateConfig) : String :=
  (gen_party_model_id (newModelId cfg) cfg.local_role (toString cfg.migrate_party_id)).getD ""

/-- The `(model_id, model_version)` identity of the source model. -/
def migration_source_identity (cfg : MigrateConfig) : String × String :=
  (cfg.model_id, cfg.model_version)

/-- The `(model_id, model_version)` identity of the migrated model. -/
def migration_new_identity (cfg : MigrateConfig) : String × String :=
  (newModelId cfg, cfg.unify_model_version)

/-- The `ENABLE_MODEL_STORE` pre-step of `migration`: when enabled and
the remote copy exists, download it into the source model's local cache
slot. -/
def migrationSync (cfg : MigrateConfig) (env : MigrationEnv) (s : Store) :
    Store × List MEvent :=
  if env.enableModelStore then
    if env.remoteExists cfg.local_role (toString cfg.local_party_id) cfg.model_id cfg.model_version then
      (setEntry s (srcPartyModelId cfg) cfg.model_version
        (env.remoteModel cfg.local_role (toString cfg.local_party_id) cfg.model_id cfg.model_version),
       [.syncDownload cfg.local_role (toString cfg.local_party_id) cfg.model_id cfg.model_version])
    else (s, [])
  else (s, [])

/-- `MLModel.get_or_none(f_role == role, f_party_id == party,
f_model_id == mid, f_model_version == ver)` as an existence test. -/
def dbHasIdentity (db : List DbRow) (role party mid ver : String) : Bool :=
  db.any (fun r =>
    aget r "f_role" == some (.s role) && aget r "f_party_id" == some (.s party) &&
    aget r "f_model_id" == some (.s mid) && aget r "f_model_version" == some (.s ver))

/-- Modelled from the spec: `PIPELINE_COMPONENT_NAME` (from
`fate_flow.utils.job_utils`, not part of src) names the reserved
pipeline component excluded from the component-meta query. -/
def PIPELINE_COMPONENT_NAME : String := "pipeline"

/-- `pipelined_component.get_define_meta_from_db(f_component_name !=
PIPELINE_COMPONENT_NAME)` for one stored model. -/
def defineMetaRows (s : Store) (pmid ver : String) : List MetaRow :=
  (((getEntry s pmid ver).map SavedModel.meta).getD []).filter
    (fun r => r.f_component_name != PIPELINE_COMPONENT_NAME)

/-- Modelled from the spec: `JobRuntimeConfigAdapter.update_model_id_version`
(fate_flow.utils.config_adapter, not part of src) writes the model id and
version into the runtime conf; `get_common_parameters().to_dict()` then
exposes exactly these values. -/
def update_model_id_version (conf : TrainConf) (mid ver : String) : TrainConf :=
  { conf with job_model_id := mid, job_model_version := ver }

/-- The pipeline blob rewrite performed by `migration` (lines 121-139):
the train runtime conf's role and initiator are replaced by the migrate
role and initiator, the model id and version are set to the newly
generated id and the unify model version, and the blob's top-level
initiator fields are overwritten exactly when its FATE version is
greater than 1.5.0. -/
def migratedBlob (cfg : MigrateConfig) (pb : PipelineBlob) : PipelineBlob :=
  let trc1 := { pb.train_runtime_conf with
    role := cfg.migrate_role, initiator := cfg.migrate_initiator }
  let trc2 := update_model_id_version trc1
    ((gen_model_id (.adict trc1.role)).getD "") cfg.unify_model_version
  { pb with
    train_runtime_conf := trc2,
    model_id := trc2.job_model_id,
    model_version := trc2.job_model_version,
    initiator_role :=
      if compare_version pb.fate_version "1.5.0" == "gt"
      then cfg.migrate_initiator.role else pb.initiator_role,
    initiator_party_id :=
      if compare_version pb.fate_version "1.5.0" == "gt"
      then cfg.migrate_initiator.party_id else pb.initiator_party_id }

/-- The guest and host list arguments of the `model_migration` call
(migrate_model.py lines 108-111): `config_data['role']['guest']`,
`config_data['migrate_role']['guest']`, `config_data['role']['host']`,
`config_data['migrate_role']['host']` are indexed directly, in this
order, and a missing key raises `KeyError` whose `str()` is the quoted
key name.  The arbiter lists (lines 112-113) use `.get` and cannot
raise. -/
def migrateRoleLists (cfg : MigrateConfig) :
    Except String (List Int × List Int × List Int × List Int) :=
  match aget cfg.role "guest" with
  | none => .error "\x27guest\x27"
  | some old_guest =>
    match aget cfg.migrate_role "guest" with
    | none => .error "\x27guest\x27"
    | some new_guest =>
      match aget cfg.role "host" with
      | none => .error "\x27host\x27"
      | some old_host =>
        match aget cfg.migrate_role "host" with
        | none => .error "\x27host\x27"
        | some new_host => .ok (old_guest, new_guest, old_host, new_host)

/-- The `for row in query` loop of `migration`: read each component
model of the source, transform it with the caller-supplied migrate tool,
and save it under the new identity.  A missing component file raises;
so does a role dict without the `guest` or `host` key, evaluated per
row when the `model_migration` arguments are built. -/
def migrateComponentsLoop (env : MigrationEnv) (cfg : MigrateConfig) :
    List MetaRow → Store → List MEvent → (Except String Unit) × Store × List MEvent
  | [], s, t => (.ok (), s, t)
  | row :: rest, s, t =>
    match readComponentModel s (srcPartyModelId cfg) cfg.model_version
        row.f_component_name row.f_model_alias with
    | none =>
      (.error ("Can not found component model " ++ row.f_component_name ++ " "
        ++ row.f_model_alias ++ "."), s, t)
    | some comp =>
      match migrateRoleLists cfg with
      | .error e => (.error e, s, t)
      | .ok lists =>
        let modified := env.migrateBuffer comp.2.1 row.f_component_module_name
          lists.1 lists.2.1 lists.2.2.1 lists.2.2.2
          (aget cfg.role "arbiter") (aget cfg.migrate_role "arbiter")
        let s1 := saveComponentModel s (newPartyModelId cfg) cfg.unify_model_version
          row.f_component_name row.f_component_module_name row.f_model_alias modified
          row.f_run_parameters
        migrateComponentsLoop env cfg rest s1
          (t ++ [.saveComponent (newPartyModelId cfg) cfg.unify_model_version row.f_component_name])

/-- Modelled from the spec: `gather_and_save_model_info` (imported from
`model_utils` by the migration module but absent from the `model_utils`
in src) gathers the migrated model's info from its pipeline blob and
registers it in the relational store via `save_model_info`. -/
def gather_and_save_model_info (env : MigrationEnv) (s : Store)
    (pmid ver role party : String) : Except String Store :=
  match getEntry s pmid ver with
  | none => .error ("Model " ++ pmid ++ " " ++ ver ++ " not found.")
  | some sm =>
    match sm.pipeline with
    | none => .error ("Model " ++ pmid ++ " " ++ ver ++ " pipeline file not found.")
    | some blob =>
      (save_model_info env s (gather_model_info_data sm blob role party)).map Prod.snd

/-- The body of the `try` block of `migrate_model.migration`, in source
order: optional remote sync, source-existence check, target-occupancy
check in the relational store, component-model migration loop, pipeline
blob rewrite and save, import-config generation, info registration,
packaging. -/
def migration_body (cfg : MigrateConfig) (env : MigrationEnv) (s0 : Store) :
    (Except String MigOk) × Store × List MEvent :=
  let st1 := migrationSync cfg env s0
  let s1 := st1.1
  let t1 := st1.2
  if !modelExists s1 (srcPartyModelId cfg) cfg.model_version then
    (.error ("Can not found " ++ cfg.model_id ++ " " ++ cfg.model_version
      ++ " model local cache."), s1, t1)
  else
    let t2 := t1 ++ [.dbCheck]
    if dbHasIdentity s1.db cfg.local_role (toString cfg.local_party_id)
        cfg.model_id cfg.unify_model_version then
      (.error ("Unify model version " ++ cfg.unify_model_version
        ++ " has been occupied in database. Please choose another unify model version and try again."),
       s1, t2)
    else
      match migrateComponentsLoop env cfg
          (defineMetaRows s1 (srcPartyModelId cfg) cfg.model_version) s1 t2 with
      | (.error e, s2, t3) => (.error e, s2, t3)
      | (.ok _, s2, t3) =>
        match readPipelineModel s2 (srcPartyModelId cfg) cfg.model_version with
        | none =>
          (.error ("Model " ++ srcPartyModelId cfg ++ " " ++ cfg.model_version
            ++ " pipeline file not found."), s2, t3)
        | some pb =>
          let pb2 := migratedBlob cfg pb
          let s3 := savePipelineModel s2 (newPartyModelId cfg) cfg.unify_model_version pb2
          let t4 := t3 ++ [.savePipeline (newPartyModelId cfg) cfg.unify_model_version]
          let s4 := genModelImportConfig s3 (newPartyModelId cfg) cfg.unify_model_version
          match gather_and_save_model_info env s4 (newPartyModelId cfg)
              cfg.unify_model_version cfg.local_role (toString cfg.local_party_id) with
          | .error e => (.error e, s4, t4)
          | .ok s5 =>
            let s6 := packagingModel s5 (newPartyModelId cfg) cfg.unify_model_version
            (.ok { adapterModelId := pb2.model_id,
                   partyModelId := newPartyModelId cfg,
                   modelVersion := cfg.unify_model_version,
                   archivePath := env.abspath
                     (archiveModelFilePath (newPartyModelId cfg) cfg.unify_model_version) },
             s6,
             t4 ++ [.saveInfo, .packaging (newPartyModelId cfg) cfg.unify_model_version])

/-- The success message returned by `migration`. -/
def successMsg (d : MigOk) : String :=
  "Migrating model successfully. The configuration of model has been modified automatically. New model id is: "
  ++ d.adapterModelId ++ ", model version is: " ++ d.modelVersion
  ++ ". Model files can be found at \x27" ++ d.archivePath ++ "\x27."

/-- `migrate_model.migration`: the `try/except` wrapper around the body.
Any exception becomes `(100, str(e), {})`; success becomes `(0, message,
{model_id, model_version, path})`. -/
def migration (cfg : MigrateConfig) (env : MigrationEnv) (s : Store) :
    (Nat × String × List (String × String)) × Store × List MEvent :=
  match migration_body cfg env s with
  | (.ok d, s1, t) =>
    ((0, successMsg d,
      [("model_id", d.partyModelId), ("model_version", d.modelVersion),
       ("path", d.archivePath)]), s1, t)
  | (.error e, s1, t) => ((100, e, []), s1, t)

/-! ## Predicates used by the theorem statements -/

/-- A file-store entry is well formed when its path destructures the way
`query_model_info_from_file` expects and an existing model has a readable
pipeline blob. -/
def entryWf (root : String) (e : (String × String) × SavedModel) : Bool :=
  (parsePath (mkPath root e.1.1 e.1.2)).isSome && (!e.2.valid || e.2.pipeline.isSome)

/-- All file-store entries are well formed. -/
def wfStoreB (root : String) (s : Store) : Bool :=
  s.files.all (entryWf root)

/-- The key set of the dict built by `gather_model_info_data` (it depends
only on the blob's FATE version). -/
def infoKeys (blob : PipelineBlob) : List String :=
  if compare_version blob.fate_version "1.5.1" == "lt" then
    ["f_model_id", "f_model_version", "f_initiator_role", "f_initiator_party_id",
     "f_fate_version", "f_train_runtime_conf", "f_job_id", "f_role", "f_party_id",
     "f_runtime_conf", "f_size", "f_roles"]
  else
    ["f_model_id", "f_model_version", "f_initiator_role", "f_initiator_party_id",
     "f_fate_version", "f_train_runtime_conf", "f_job_id", "f_role", "f_party_id",
     "f_runtime_conf", "f_size"]

/-- Every field of the info dict reconstructed for this model is listed
in the query filters. -/
def keysCovered (query_filters : List String) (sm : SavedModel) : Bool :=
  match sm.pipeline with
  | none => true
  | some blob => (infoKeys blob).all (fun k => memb k query_filters)

/-- The claim's reading of `all_party_key`: the party ids are
deduplicated, stringified, and only then sorted (that is, sorted as
strings); stated for comparison with the source's `all_party_key`. -/
def all_party_key_claim (ap : AllParty) : Option String :=
  if !pyTruthy ap then some "all"
  else
    match ap with
    | .adict d =>
      some ("#".intercalate
        ((sortStrings (d.map Prod.fst)).map
          (fun rn => rn ++ "-" ++
            "_".intercalate (sortStrings ((dGetParties d rn).dedup.map toString)))))
    | _ => none

/-- The role dicts carry the `guest` and `host` entries that the
component migration loop indexes directly
(`config_data['role']['guest']` etc.); absent keys make that loop raise
`KeyError`. -/
def rolesKeysPresent (cfg : MigrateConfig) : Prop :=
  (aget cfg.role "guest").isSome = true ∧
  (aget cfg.migrate_role "guest").isSome = true ∧
  (aget cfg.role "host").isSome = true ∧
  (aget cfg.migrate_role "host").isSome = true

/-- The source model is fully present in the local cache: it exists, its
pipeline blob is readable, and every component named by its meta rows is
readable. -/
def sourceComplete (s : Store) (cfg : MigrateConfig) : Prop :=
  modelExists s (srcPartyModelId cfg) cfg.model_version = true ∧
  (readPipelineModel s (srcPartyModelId cfg) cfg.model_version).isSome = true ∧
  ∀ row ∈ defineMetaRows s (srcPartyModelId cfg) cfg.model_version,
    (readComponentModel s (srcPartyModelId cfg) cfg.model_version
      row.f_component_name row.f_model_alias).isSome = true

/-! ## Concrete fixtures for witnesses and counterexamples -/

/-- A concrete pipeline blob of a FATE 1.7.0 model. -/
def blob0 : PipelineBlob :=
  { model_id := "guest-9999#host-10000#model", model_version := "202001",
    initiator_role := "guest", initiator_party_id := "9999", fate_version := "1.7.0",
    train_runtime_conf :=
      { role := [("guest", [9999]), ("host", [10000])],
        initiator := { role := "guest", party_id := "9999" },
        job_model_id := "guest-9999#host-10000#model", job_model_version := "202001" } }

/-- A concrete, complete source model directory. -/
def srcModel : SavedModel :=
  { valid := true,
    meta := [{ f_component_name := "dataio_0", f_component_module_name := "DataIO",
               f_model_alias := "dataio", f_run_parameters := "rp" }],
    components := [(("dataio_0", "dataio"), ("DataIO", "BUF", "rp"))],
    pipeline := some blob0, size := 10 }

/-- A benign environment: model store disabled, no insert faults. -/
def env0 : MigrationEnv :=
  { enableModelStore := false, rootDir := "/root/cache", currentTime := 5,
    remoteExists := fun _ _ _ _ => false, remoteModel := fun _ _ _ _ => {},
    migrateBuffer := fun b _ _ _ _ _ _ _ => b ++ "-migrated",
    insertFault := fun _ => none, abspath := fun p => "/abs/" ++ p }

/-- An environment whose database rejects every insert with a
non-duplicate-key error. -/
def envBad : MigrationEnv :=
  { env0 with insertFault := fun _ => some (.other "db down") }

/-- A concrete migration request onto fresh role data. -/
def cfg0 : MigrateConfig :=
  { model_id := "guest-9999#host-10000#model", model_version := "202001",
    local_role := "guest", local_party_id := 9999, migrate_party_id := 99,
    unify_model_version := "202002",
    role := [("guest", [9999]), ("host", [10000])],
    migrate_role := [("guest", [99]), ("host", [100])],
    migrate_initiator := { role := "guest", party_id := "99" } }

/-- A concrete migration request with role data identical to the source
and a unify model version equal to the source model version. -/
def cfg8 : MigrateConfig :=
  { model_id := "guest-9999#host-10000#model", model_version := "202001",
    local_role := "guest", local_party_id := 9999, migrate_party_id := 8888,
    unify_model_version := "202001",
    role := [("guest", [9999]), ("host", [10000])],
    migrate_role := [("guest", [9999]), ("host", [10000])],
    migrate_initiator := { role := "guest", party_id := "9999" } }

/-- The identical-roles migration request of `cfg8`, but with a fresh
unify model version. -/
def cfg0b : MigrateConfig :=
  { cfg8 with unify_model_version := "202002" }

/-- A store holding just the concrete source model. -/
def st0 : Store :=
  { db := [], files := [(("guest#9999#guest-9999#host-10000#model", "202001"), srcModel)] }

/-- A store whose relational table already holds the target identity of
`cfg0` (source model id with the unify model version). -/
def stOcc : Store :=
  { db := [[("f_role", .s "guest"), ("f_party_id", .s "9999"),
            ("f_model_id", .s "guest-9999#host-10000#model"), ("f_model_version", .s "202002")]],
    files := st0.files }

/-- A concrete relational row used by the query fixtures. -/
def dbrow1 : DbRow :=
  [("f_role", .s "guest"), ("f_party_id", .s "9999"),
   ("f_model_id", .s "mid"), ("f_model_version", .s "v1"), ("f_size", .n 3)]

/-- A store with one relational row and one file-store model. -/
def stq : Store :=
  { db := [dbrow1], files := st0.files }

/-- The info dict gathered from the concrete source model. -/
def infoX : ModelInfo :=
  gather_model_info_data srcModel blob0 "guest" "9999"

/-! ## Helper lemmas -/

theorem memb_iff (k : String) (l : List String) : memb k l = true ↔ k ∈ l := by
  induction l with
  | nil => simp [memb]
  | cons x xs ih => simp [memb, ih]

theorem setEqBool_iff (xs ys : List String) :
    setEqBool xs ys = true ↔ xs.toFinset = ys.toFinset := by
  simp only [setEqBool, Bool.and_eq_true, List.all_eq_true, memb_iff, Finset.ext_iff,
    List.mem_toFinset]
  constructor
  · rintro ⟨h1, h2⟩ a
    exact ⟨fun ha => h1 a ha, fun ha => h2 a ha⟩
  · intro h
    exact ⟨fun a ha => (h a).mp ha, fun a ha => (h a).mpr ha⟩

theorem sorted_dedup_eq {α : Type} [LinearOrder α] [DecidableEq α] {l1 l2 : List α}
    (h : l1.toFinset = l2.toFinset) :
    List.insertionSort (· ≤ ·) l1.dedup = List.insertionSort (· ≤ ·) l2.dedup := by
  have hp : List.Perm l1.dedup l2.dedup := List.toFinset_eq_iff_perm_dedup.mp h
  exact List.eq_of_perm_of_sorted
    (((List.perm_insertionSort _ _).trans hp).trans (List.perm_insertionSort _ _).symm)
    (List.sorted_insertionSort _ _) (List.sorted_insertionSort _ _)

theorem chListLe_total : ∀ x y : List Char, chListLe x y = true ∨ chListLe y x = true := by
  intro x
  induction x with
  | nil => intro y; left; rfl
  | cons a as ih =>
    intro y
    cases y with
    | nil => right; rfl
    | cons b bs =>
      by_cases hab : a < b
      · left; simp [chListLe, hab]
      · by_cases hba : b < a
        · right; simp [chListLe, hba]
        · have hab2 : a = b := le_antisymm (le_of_not_lt hba) (le_of_not_lt hab)
          subst hab2
          rcases ih bs with h | h
          · left; simp [chListLe, lt_irrefl, h]
          · right; simp [chListLe, lt_irrefl, h]

theorem chListLe_trans : ∀ x y z : List Char, chListLe x y = true → chListLe y z = true →
    chListLe x z = true := by
  intro x
  induction x with
  | nil => intro y z _ _; rfl
  | cons a as ih =>
    intro y z hxy hyz
    cases y with
    | nil => simp [chListLe] at hxy
    | cons b bs =>
      cases z with
      | nil => simp [chListLe] at hyz
      | cons c cs =>
        by_cases hab : a < b
        · by_cases hbc : b < c
          · simp [chListLe, lt_trans hab hbc]
          · by_cases hcb : c < b
            · simp [chListLe, hbc, hcb] at hyz
            · have hbc2 : b = c := le_antisymm (le_of_not_lt hcb) (le_of_not_lt hbc)
              subst hbc2
              simp [chListLe, hab]
        · by_cases hba : b < a
          · simp [chListLe, hab, hba] at hxy
          · have hab2 : a = b := le_antisymm (le_of_not_lt hba) (le_of_not_lt hab)
            subst hab2
            by_cases hac : a < c
            · simp [chListLe, hac]
            · by_cases hca : c < a
              · simp [chListLe, hac, hca] at hyz
              · have hac2 : a = c := le_antisymm (le_of_not_lt hca) (le_of_not_lt hac)
                subst hac2
                simp only [chListLe, lt_irrefl, if_false] at hxy hyz ⊢
                exact ih bs cs hxy hyz

theorem chListLe_antisymm : ∀ x y : List Char, chListLe x y = true → chListLe y x = true →
    x = y := by
  intro x
  induction x with
  | nil =>
    intro y hxy hyx
    cases y with
    | nil => rfl
    | cons b bs => simp [chListLe] at hyx
  | cons a as ih =>
    intro y hxy hyx
    cases y with
    | nil => simp [chListLe] at hxy
    | cons b bs =>
      by_cases hab : a < b
      · simp [chListLe, hab, lt_asymm hab] at hyx
      · by_cases hba : b < a
        · simp [chListLe, hab, hba] at hxy
        · have hab2 : a = b := le_antisymm (le_of_not_lt hba) (le_of_not_lt hab)
          subst hab2
          simp only [chListLe, lt_irrefl, if_false] at hxy hyx
          rw [ih bs hxy hyx]

instance : IsTotal String (fun a b => pyStrLe a b = true) :=
  ⟨fun a b => chListLe_total a.data b.data⟩

instance : IsTrans String (fun a b => pyStrLe a b = true) :=
  ⟨fun a b c => chListLe_trans a.data b.data c.data⟩

instance : IsAntisymm String (fun a b => pyStrLe a b = true) :=
  ⟨fun a b h1 h2 => by
    cases a with
    | mk da =>
      cases b with
      | mk db =>
        have : da = db := chListLe_antisymm da db h1 h2
        rw [this]⟩

theorem sortStrings_nodup_eq {l1 l2 : List String}
    (h1 : l1.Nodup) (h2 : l2.Nodup) (h : ∀ k, k ∈ l1 ↔ k ∈ l2) :
    sortStrings l1 = sortStrings l2 :=
  List.eq_of_perm_of_sorted
    (((List.perm_insertionSort _ _).trans ((List.perm_ext_iff_of_nodup h1 h2).mpr h)).trans
      (List.perm_insertionSort _ _).symm)
    (List.sorted_insertionSort _ _) (List.sorted_insertionSort _ _)

theorem migrationSync_db (cfg : MigrateConfig) (env : MigrationEnv) (s : Store) :
    (migrationSync cfg env s).1.db = s.db := by
  unfold migrationSync
  split
  · split
    · rfl
    · rfl
  · rfl

theorem migrationSync_events (cfg : MigrateConfig) (env : MigrationEnv) (s : Store) :
    ∀ e ∈ (migrationSync cfg env s).2, isSaveEvent e = false := by
  unfold migrationSync
  split
  · split
    · intro e he
      simp only [List.mem_singleton] at he
      subst he
      rfl
    · intro e he
      simp at he
  · intro e he
    simp at he

/-! ## Claim theorems -/

/-- C1: for every migration config input, if any step of migration
raises an exception, `migration` returns status code 100, the
exception's message string, and an empty dict; on success it returns
status code 0 together with the new model id, model version and archive
path. -/
theorem migration_status_code_contract (cfg : MigrateConfig) (env : MigrationEnv) (s : Store) :
    (∀ e s1 t, migration_body cfg env s = (.error e, s1, t) →
      migration cfg env s = ((100, e, []), s1, t)) ∧
    (∀ d s1 t, migration_body cfg env s = (.ok d, s1, t) →
      migration cfg env s = ((0, successMsg d,
        [("model_id", d.partyModelId), ("model_version", d.modelVersion),
         ("path", d.archivePath)]), s1, t)) := by
  constructor
  · intro e s1 t h
    simp [migration, h]
  · intro d s1 t h
    simp [migration, h]

theorem migration_status_code_contract_witness :
    migration cfg0 env0 stOcc =
      ((100, "Unify model version 202002 has been occupied in database. Please choose another unify model version and try again.", []),
       stOcc, [MEvent.dbCheck]) :=
  (migration_status_code_contract cfg0 env0 stOcc).1 _ stOcc [MEvent.dbCheck] rfl

/-- C2: when the target identity (role, party, model_id, unify version)
is already registered in the relational store, migration fails with
status 100, an empty result, and no component-model or pipeline-blob
save ever happens: the database existence check precedes every
`save_component_model` and `save_pipeline_model` call. -/
theorem migration_occupied_fails_before_saves (cfg : MigrateConfig) (env : MigrationEnv)
    (s : Store)
    (h : dbHasIdentity s.db cfg.local_role (toString cfg.local_party_id)
      cfg.model_id cfg.unify_model_version = true) :
    (migration cfg env s).1.1 = 100 ∧ (migration cfg env s).1.2.2 = [] ∧
    (migration cfg env s).2.2.all (fun e => !isSaveEvent e) = true := by
  have hdb := migrationSync_db cfg env s
  have hev := migrationSync_events cfg env s
  by_cases hex : modelExists (migrationSync cfg env s).1 (srcPartyModelId cfg) cfg.model_version
  · have hm : migration cfg env s =
        ((100, "Unify model version " ++ cfg.unify_model_version
          ++ " has been occupied in database. Please choose another unify model version and try again.", []),
         (migrationSync cfg env s).1, (migrationSync cfg env s).2 ++ [MEvent.dbCheck]) := by
      simp [migration, migration_body, hex, hdb, h]
    rw [hm]
    refine ⟨rfl, rfl, ?_⟩
    simp only [List.all_append, List.all_eq_true, Bool.and_eq_true]
    constructor
    · intro e he
      simp [hev e he]
    · intro e he
      simp only [List.mem_singleton] at he
      subst he
      rfl
  · have hm : migration cfg env s =
        ((100, "Can not found " ++ cfg.model_id ++ " " ++ cfg.model_version
          ++ " model local cache.", []),
         (migrationSync cfg env s).1, (migrationSync cfg env s).2) := by
      simp [migration, migration_body, hex]
    rw [hm]
    refine ⟨rfl, rfl, ?_⟩
    simp only [List.all_eq_true]
    intro e he
    simp [hev e he]

theorem migration_occupied_fails_before_saves_witness :
    (migration cfg0 env0 stOcc).1.1 = 100 ∧ (migration cfg0 env0 stOcc).1.2.2 = [] ∧
    (migration cfg0 env0 stOcc).2.2.all (fun e => !isSaveEvent e) = true :=
  migration_occupied_fails_before_saves cfg0 env0 stOcc (by decide)

/-- C3 (amended): `compare_roles` raises when the key sets differ, or
when some per-role length differs or a declared per-role value is not a
list; when the shapes match it returns (rather than raises) the Boolean
that is true iff, per role key, the sets of stringified values coincide. -/
theorem compare_roles_contract (request run_time : RolesDict) :
    compare_roles request run_time =
      (if dictKeysEq request run_time then
        (if request.all (fun kv =>
            roleValLen kv.2 == roleValLen (dGetRole run_time kv.1) && roleValIsList kv.2) then
          .ok (decide (∀ kv ∈ request,
            (roleValStrings kv.2).toFinset = (roleValStrings (dGetRole run_time kv.1)).toFinset))
        else .error rolesMismatchMsg)
      else .error rolesMismatchMsg) := by
  unfold compare_roles
  split
  · cases hfmt : request.all (fun kv =>
        roleValLen kv.2 == roleValLen (dGetRole run_time kv.1) && roleValIsList kv.2) with
    | false => simp [hfmt]
    | true =>
      simp only [hfmt, Bool.not_true, Bool.false_eq_true, if_false, if_pos]
      refine congrArg Except.ok ?_
      rw [Bool.eq_iff_iff]
      simp only [List.all_eq_true, decide_eq_true_eq]
      constructor
      · intro hall kv hkv
        exact (setEqBool_iff _ _).mp (hall kv hkv)
      · intro hall kv hkv
        exact (setEqBool_iff _ _).mpr (hall kv hkv)
  · rfl

/-- C3 counterexample: with equal lengths and equal value *sets* but
different value *multisets*, `compare_roles` returns `ok true` instead
of rejecting with an error. -/
theorem compare_roles_set_not_multiset :
    compare_roles [("guest", .list [.i 1, .i 1, .i 2])] [("guest", .list [.i 1, .i 2, .i 2])]
      = .ok true ∧
    ¬ (roleValStrings (.list [.i 1, .i 1, .i 2])).Perm
        (roleValStrings (.list [.i 1, .i 2, .i 2])) := by
  constructor
  · rfl
  · decide

/-- C10 (amended): `gen_model_id` is invariant under reordering of role
keys and reordering or duplication of party ids (`all_party_key` sorts
the role names, and sorts the deduplicated party ids *before*
stringifying them); `all_party_key` returns `'all'` for a falsy input
and `None` for a non-dict input. -/
theorem gen_model_id_reorder_invariant :
    (∀ d1 d2 : List (String × List Int),
      (d1.map Prod.fst).Nodup → (d2.map Prod.fst).Nodup →
      (d1.map Prod.fst).toFinset = (d2.map Prod.fst).toFinset →
      (∀ k ∈ d1.map Prod.fst, (dGetParties d1 k).toFinset = (dGetParties d2 k).toFinset) →
      gen_model_id (.adict d1) = gen_model_id (.adict d2)) ∧
    (∀ ap, pyTruthy ap = false → all_party_key ap = some "all") ∧
    (∀ s : String, s ≠ "" → all_party_key (.astr s) = none) := by
  refine ⟨?_, ?_, ?_⟩
  · intro d1 d2 hn1 hn2 hkf hv
    have hk : ∀ k, k ∈ d1.map Prod.fst ↔ k ∈ d2.map Prod.fst := by
      intro k
      rw [← List.mem_toFinset, hkf, List.mem_toFinset]
    unfold gen_model_id all_party_key
    by_cases hd : d1 = []
    · have hd2 : d2 = [] := by
        have : d2.map Prod.fst = [] := by
          rw [List.eq_nil_iff_forall_not_mem]
          intro k hk2
          have := (hk k).mpr hk2
          simp [hd] at this
        exact List.map_eq_nil_iff.mp this
      simp [pyTruthy, hd, hd2]
    · have hd2 : d2 ≠ [] := by
        intro h2
        apply hd
        have : d1.map Prod.fst = [] := by
          rw [List.eq_nil_iff_forall_not_mem]
          intro k hk1
          have := (hk k).mp hk1
          simp [h2] at this
        exact List.map_eq_nil_iff.mp this
      rw [if_neg (by simp [pyTruthy, List.isEmpty_iff, hd]),
        if_neg (by simp [pyTruthy, List.isEmpty_iff, hd2])]
      have hmap :
          (sortStrings (d1.map Prod.fst)).map (fun rn => rolePartyKey rn (dGetParties d1 rn)) =
          (sortStrings (d2.map Prod.fst)).map (fun rn => rolePartyKey rn (dGetParties d2 rn)) := by
        rw [sortStrings_nodup_eq hn1 hn2 hk]
        refine List.map_congr_left ?_
        intro rn hrn
        have hrn1 : rn ∈ d1.map Prod.fst := by
          have := (List.perm_insertionSort (fun a b => pyStrLe a b = true) (d2.map Prod.fst)).mem_iff.mp hrn
          exact (hk rn).mpr this
        unfold rolePartyKey
        rw [sorted_dedup_eq (hv rn hrn1)]
      simp only [hmap]
  · intro ap h
    unfold all_party_key
    rw [h]
    rfl
  · intro s hs
    unfold all_party_key
    have : pyTruthy (.astr s) = true := by
      simp [pyTruthy, hs]
    rw [this]
    rfl

theorem gen_model_id_reorder_invariant_witness :
    gen_model_id (.adict [("guest", [1, 2]), ("host", [3])])
      = gen_model_id (.adict [("host", [3, 3]), ("guest", [2, 1, 1])]) :=
  gen_model_id_reorder_invariant.1 _ _ (by decide) (by decide) (by decide) (by decide)

/-- C10 counterexample: `all_party_key` sorts the party ids before
stringifying them, so `[10, 2]` yields `guest-2_10`; the claim's
sort-the-stringified-ids reading would yield `guest-10_2`. -/
theorem all_party_key_not_string_sorted :
    all_party_key (.adict [("guest", [10, 2])]) = some "guest-2_10" ∧
    all_party_key_claim (.adict [("guest", [10, 2])]) = some "guest-10_2" := by
  constructor
  · rfl
  · rfl

/-- C4: without `file_only`, `query_model_info` first queries the
relational store and returns that result unchanged when it succeeds
(retcode 0); only on a relational-store miss does it scan the file store
(with backfill to the relational store enabled, `save_to_db = true`);
when both miss it returns retcode 100 with an empty list. -/
theorem query_model_info_dispatch :
    (∀ p env s m d,
      query_model_info_from_db p p.query_filters.dedup s.db = (0, m, d) →
      query_model_info false p env s = (.ok (0, m, d), s)) ∧
    (∀ p env s m d s1,
      (query_model_info_from_db p p.query_filters.dedup s.db).1 ≠ 0 →
      query_model_info_from_file (p.model_id.getD "*") (p.model_version.getD "*")
        (p.role.getD "*") (p.party_id.getD "*") p.query_filters.dedup true env s
        = (.ok (0, m, d), s1) →
      query_model_info false p env s = (.ok (0, m, d), s1)) ∧
    (∀ p env s rc m d s1,
      (query_model_info_from_db p p.query_filters.dedup s.db).1 ≠ 0 →
      query_model_info_from_file (p.model_id.getD "*") (p.model_version.getD "*")
        (p.role.getD "*") (p.party_id.getD "*") p.query_filters.dedup true env s
        = (.ok (rc, m, d), s1) →
      rc ≠ 0 →
      query_model_info false p env s = (.ok (100, bothMissMsg, []), s1)) := by
  refine ⟨?_, ?_, ?_⟩
  · intro p env s m d h
    simp [query_model_info, h]
  · intro p env s m d s1 hne hf
    rcases hdb : query_model_info_from_db p p.query_filters.dedup s.db with ⟨rc', m', d'⟩
    rw [hdb] at hne
    simp only [ne_eq] at hne
    cases rc' with
    | zero => exact absurd rfl hne
    | succ n => simp [query_model_info, hdb, hf]
  · intro p env s rc m d s1 hne hf hrc
    rcases hdb : query_model_info_from_db p p.query_filters.dedup s.db with ⟨rc', m', d'⟩
    rw [hdb] at hne
    simp only [ne_eq] at hne
    cases rc' with
    | zero => exact absurd rfl hne
    | succ n =>
      cases rc with
      | zero => exact absurd rfl hrc
      | succ k => simp [query_model_info, hdb, hf]

theorem query_model_info_dispatch_witness :
    query_model_info false { model_id := some "mid" } env0 stq =
      (.ok (0, "Query model info from db success.", [dbrow1]), stq) :=
  query_model_info_dispatch.1 _ env0 stq _ _ rfl

theorem splitCh_ne_nil (c : Char) (l : List Char) : splitCh c l ≠ [] := by
  cases l with
  | nil => simp [splitCh]
  | cons x xs =>
    simp only [splitCh]
    split
    · simp
    · split
      · simp
      · simp

theorem splitCh_no_sep {c : Char} : ∀ {l : List Char}, c ∉ l → splitCh c l = [l] := by
  intro l
  induction l with
  | nil => intro _; rfl
  | cons x xs ih =>
    intro h
    have hx : ¬ x = c := by
      intro e
      exact h (e ▸ List.mem_cons_self x xs)
    have hxs : c ∉ xs := fun hm => h (List.mem_cons_of_mem _ hm)
    simp only [splitCh, if_neg hx, ih hxs]

theorem splitCh_cons_self (c : Char) (xs : List Char) :
    splitCh c (c :: xs) = [] :: splitCh c xs := by
  simp [splitCh]

theorem splitCh_cons_ne (c x : Char) (xs : List Char) (hx : ¬ x = c)
    {y : List Char} {ys : List (List Char)} (h : splitCh c xs = y :: ys) :
    splitCh c (x :: xs) = (x :: y) :: ys := by
  simp [splitCh, hx, h]

theorem splitCh_append (c : Char) : ∀ (a b : List Char),
    splitCh c (a ++ c :: b) = splitCh c a ++ splitCh c b := by
  intro a b
  induction a with
  | nil => rw [List.nil_append, splitCh_cons_self]; rfl
  | cons x xs ih =>
    by_cases hx : x = c
    · subst hx
      rw [List.cons_append, splitCh_cons_self, splitCh_cons_self, ih, List.cons_append]
    · cases h : splitCh c xs with
      | nil => exact absurd h (splitCh_ne_nil c xs)
      | cons y ys =>
        have h2 : splitCh c (xs ++ c :: b) = y :: (ys ++ splitCh c b) := by
          rw [ih, h]; rfl
        rw [List.cons_append, splitCh_cons_ne c x _ hx h2, splitCh_cons_ne c x xs hx h,
          List.cons_append]

theorem joinCh_splitCh (c : Char) : ∀ l : List Char, joinCh c (splitCh c l) = l := by
  intro l
  induction l with
  | nil => rfl
  | cons x xs ih =>
    by_cases hx : x = c
    · subst hx
      simp only [splitCh, if_pos rfl]
      cases h : splitCh x xs with
      | nil => exact absurd h (splitCh_ne_nil x xs)
      | cons y ys =>
        rw [h] at ih
        simp only [joinCh, List.nil_append]
        rw [ih]
    · simp only [splitCh, if_neg hx]
      cases h : splitCh c xs with
      | nil => exact absurd h (splitCh_ne_nil c xs)
      | cons y ys =>
        rw [h] at ih
        cases ys with
        | nil =>
          simp only [joinCh] at ih ⊢
          rw [ih]
        | cons z zs =>
          simp only [joinCh] at ih ⊢
          rw [List.cons_append, ih]

theorem pyRsplit2_parts (c : Char) (root a b : List Char)
    (ha : c ∉ a) (hb : c ∉ b) :
    ∃ r0, pyRsplit2 c (root ++ c :: (a ++ c :: b)) = [r0, a, b] := by
  have hs : splitCh c (root ++ c :: (a ++ c :: b)) = splitCh c root ++ [a, b] := by
    rw [splitCh_append, splitCh_append, splitCh_no_sep ha, splitCh_no_sep hb]
    rfl
  cases hX : splitCh c root with
  | nil => exact absurd hX (splitCh_ne_nil c root)
  | cons y ys =>
    rw [hX] at hs
    cases ys with
    | nil =>
      refine ⟨y, ?_⟩
      simp [pyRsplit2, hs]
    | cons z zs =>
      refine ⟨joinCh c (y :: z :: zs), ?_⟩
      simp only [pyRsplit2, hs]
      have hlen : (y :: z :: zs ++ [a, b]).length = zs.length + 4 := by
        simp [List.length_append]
      rw [if_neg (by rw [hlen]; omega)]
      have harith : (y :: z :: zs ++ [a, b]).length - 2 = (y :: z :: zs).length := by
        simp [List.length_append]
      rw [harith, List.take_left, List.drop_left]
      rfl

theorem pySplit2_three (c : Char) (a b d : List Char)
    (ha : c ∉ a) (hb : c ∉ b) (hd : c ∉ d) :
    pySplit2 c (a ++ c :: (b ++ c :: d)) = [a, b, d] := by
  have hs : splitCh c (a ++ c :: (b ++ c :: d)) = [a, b, d] := by
    rw [splitCh_append, splitCh_append, splitCh_no_sep ha, splitCh_no_sep hb,
      splitCh_no_sep hd]
    rfl
  simp [pySplit2, hs]

theorem string_data_append3 (a b : String) (c : Char) :
    (a ++ String.mk [c] ++ b).data = a.data ++ c :: b.data := by
  simp [String.data_append]

/-- C7: `gen_party_model_id` joins role, party id and model id with `#`,
and the file-store query splits a path
`{root}/{role}#{party_id}#{model_id}/{model_version}` back into exactly
these components: a round trip for identifiers not containing `#` or
`/`. -/
theorem party_model_id_path_roundtrip (root role party mid ver : String)
    (hr1 : '#' ∉ role.data) (hp1 : '#' ∉ party.data) (hm1 : '#' ∉ mid.data)
    (hr2 : '/' ∉ role.data) (hp2 : '/' ∉ party.data) (hm2 : '/' ∉ mid.data)
    (hv2 : '/' ∉ ver.data) (hmne : mid ≠ "") :
    gen_party_model_id mid role party = some (role ++ "#" ++ party ++ "#" ++ mid) ∧
    parsePath (mkPath root (role ++ "#" ++ party ++ "#" ++ mid) ver)
      = some (role, party, mid, ver) := by
  constructor
  · unfold gen_party_model_id
    rw [if_neg ?_]
    intro h
    rw [beq_iff_eq] at h
    exact hmne h
  · unfold parsePath mkPath
    have hdata : (root ++ "/" ++ (role ++ "#" ++ party ++ "#" ++ mid) ++ "/" ++ ver).data
        = root.data ++ '/' :: ((role.data ++ '#' :: (party.data ++ '#' :: mid.data)) ++ '/' :: ver.data) := by
      simp [String.data_append]
    have hpm : '/' ∉ role.data ++ '#' :: (party.data ++ '#' :: mid.data) := by
      intro h
      rcases List.mem_append.mp h with h | h
      · exact hr2 h
      · rcases List.mem_cons.mp h with h | h
        · exact absurd h (by decide)
        · rcases List.mem_append.mp h with h | h
          · exact hp2 h
          · rcases List.mem_cons.mp h with h | h
            · exact absurd h (by decide)
            · exact hm2 h
    rw [hdata]
    obtain ⟨r0, hr0⟩ := pyRsplit2_parts '/' root.data
      (role.data ++ '#' :: (party.data ++ '#' :: mid.data)) ver.data hpm hv2
    simp only [hr0]
    simp only [pySplit2_three '#' role.data party.data mid.data hr1 hp1 hm1]

theorem party_model_id_path_roundtrip_witness :
    gen_party_model_id "mymodel" "guest" "9999"
      = some ("guest" ++ "#" ++ "9999" ++ "#" ++ "mymodel") ∧
    parsePath (mkPath "/data" ("guest" ++ "#" ++ "9999" ++ "#" ++ "mymodel") "v1")
      = some ("guest", "9999", "mymodel", "v1") :=
  party_model_id_path_roundtrip "/data" "guest" "9999" "mymodel" "v1"
    (by decide) (by decide) (by decide) (by decide) (by decide) (by decide) (by decide)
    (by decide)

theorem gather_keys (sm : SavedModel) (blob : PipelineBlob) (r p : String) :
    (gather_model_info_data sm blob r p).map Prod.fst = infoKeys blob := by
  cases h : compare_version blob.fate_version "1.5.1" == "lt" with
  | false => simp [gather_model_info_data, infoKeys, h, aset]
  | true => simp [gather_model_info_data, infoKeys, h, aset]

theorem infoKeys_nodup (blob : PipelineBlob) : (infoKeys blob).Nodup := by
  unfold infoKeys
  split
  · decide
  · decide

theorem infoKeys_ne_nil (blob : PipelineBlob) : infoKeys blob ≠ [] := by
  unfold infoKeys
  split
  · simp
  · simp

theorem filter_del_of_not_mem {l : List (String × IVal)} {k : String}
    (h : k ∉ l.map Prod.fst) : l.filter (fun e => !(e.1 == k)) = l := by
  rw [List.filter_eq_self]
  intro e he
  have : e.1 ≠ k := by
    intro hk
    exact h (hk ▸ List.mem_map_of_mem Prod.fst he)
  simp [this]

theorem length_filter_del : ∀ {l : List (String × IVal)} {k : String},
    (l.map Prod.fst).Nodup → k ∈ l.map Prod.fst →
    (l.filter (fun e => !(e.1 == k))).length + 1 = l.length := by
  intro l
  induction l with
  | nil => intro k _ hm; simp at hm
  | cons e rest ih =>
    intro k hn hm
    simp only [List.map_cons, List.nodup_cons] at hn
    by_cases hk : e.1 = k
    · have hrest : k ∉ rest.map Prod.fst := hk ▸ hn.1
      simp only [List.filter_cons, hk, beq_self_eq_true, Bool.not_true, Bool.false_eq_true,
        if_false, filter_del_of_not_mem hrest]
      simp
    · have hm2 : k ∈ rest.map Prod.fst := by
        rw [List.map_cons] at hm
        rcases List.mem_cons.mp hm with h | h
        · exact absurd h.symm hk
        · exact h
      have := ih hn.2 hm2
      simp only [List.filter_cons, List.length_cons]
      rw [if_pos (by simp [hk])]
      simp only [List.length_cons]
      omega

theorem iterDel_err_after (filters : List String) (n0 : Nat) :
    ∀ (rem cur : List (String × IVal)), cur.length ≠ n0 →
    iterDel filters n0 rem cur = .error dictChangedMsg := by
  intro rem cur h
  have hb : (cur.length == n0) = false := by simp [h]
  cases rem with
  | nil => simp [iterDel, hb]
  | cons kv rest => simp [iterDel, bne, hb]

theorem iterDel_ok (filters : List String) (n0 : Nat) :
    ∀ (rem cur : List (String × IVal)), cur.length = n0 →
    (∀ kv ∈ rem, memb kv.1 filters = true) →
    iterDel filters n0 rem cur = .ok cur := by
  intro rem
  induction rem with
  | nil =>
    intro cur h _
    simp [iterDel, h]
  | cons kv rest ih =>
    intro cur h hall
    have hb : (cur.length != n0) = false := by simp [bne, h]
    simp only [iterDel, hb, Bool.false_eq_true, if_false]
    rw [if_pos (by rw [hall kv (List.mem_cons_self _ _)])]
    exact ih cur h (fun e he => hall e (List.mem_cons_of_mem _ he))

theorem iterDel_err (filters : List String) :
    ∀ (rem cur : List (String × IVal)) (n0 : Nat), cur.length = n0 →
    (∀ kv ∈ rem, kv ∈ cur) → ((cur.map Prod.fst).Nodup) →
    (∃ kv ∈ rem, memb kv.1 filters = false) →
    iterDel filters n0 rem cur = .error dictChangedMsg := by
  intro rem
  induction rem with
  | nil =>
    intro cur n0 _ _ _ hex
    simp at hex
  | cons kv rest ih =>
    intro cur n0 hlen hsub hn hex
    have hb : (cur.length != n0) = false := by simp [bne, hlen]
    simp only [iterDel, hb, Bool.false_eq_true, if_false]
    cases hm : memb kv.1 filters with
    | false =>
      simp only [Bool.false_eq_true, if_false]
      have hkv : kv ∈ cur := hsub kv (List.mem_cons_self _ _)
      have hk1 : kv.1 ∈ cur.map Prod.fst := List.mem_map_of_mem Prod.fst hkv
      have hflt := length_filter_del hn hk1
      refine iterDel_err_after filters n0 rest _ ?_
      omega
    | true =>
      simp only [if_true]
      refine ih cur n0 hlen (fun e he => hsub e (List.mem_cons_of_mem _ he)) hn ?_
      obtain ⟨w, hw, hwf⟩ := hex
      rcases List.mem_cons.mp hw with h | h
      · subst h
        rw [hm] at hwf
        exact absurd hwf (by simp)
      · exact ⟨w, h, hwf⟩

theorem fromFileLoop_nofilters_ok (env : MigrationEnv) (stb : Bool) :
    ∀ (entries : List ((String × String) × SavedModel)) (s : Store) (acc : List ModelInfo),
    (∀ e ∈ entries, entryWf env.rootDir e = true) →
    ∃ res s1, fromFileLoop env [] stb entries s acc = (.ok res, s1) := by
  intro entries
  induction entries with
  | nil =>
    intro s acc _
    exact ⟨acc, s, rfl⟩
  | cons e rest ih =>
    intro s acc hwf
    have hwfe := hwf e (List.mem_cons_self _ _)
    have hwfr : ∀ x ∈ rest, entryWf env.rootDir x = true :=
      fun x hx => hwf x (List.mem_cons_of_mem _ hx)
    unfold entryWf at hwfe
    rw [Bool.and_eq_true] at hwfe
    obtain ⟨hparse, hpipe⟩ := hwfe
    rw [Option.isSome_iff_exists] at hparse
    obtain ⟨⟨r, p, m, v⟩, hp⟩ := hparse
    cases hval : e.2.valid with
    | false =>
      simp only [fromFileLoop, hp, hval, Bool.not_false, if_true]
      exact ih s acc hwfr
    | true =>
      rw [hval] at hpipe
      simp only [Bool.not_true, Bool.false_or] at hpipe
      rw [Option.isSome_iff_exists] at hpipe
      obtain ⟨blob, hblob⟩ := hpipe
      simp only [fromFileLoop, hp, hval, Bool.not_true, Bool.false_eq_true, if_false, hblob,
        List.isEmpty_nil, if_true]
      exact ih _ _ hwfr

theorem fromFileLoop_filters (env : MigrationEnv) (filters : List String) (stb : Bool)
    (hne : filters ≠ []) :
    ∀ (entries : List ((String × String) × SavedModel)) (s : Store) (acc : List ModelInfo),
    (∀ e ∈ entries, entryWf env.rootDir e = true) →
    ((∀ e ∈ entries, e.2.valid = true → keysCovered filters e.2 = true) →
      ∃ res s1, fromFileLoop env filters stb entries s acc = (.ok res, s1)) ∧
    ((∃ e ∈ entries, e.2.valid = true ∧ keysCovered filters e.2 = false) →
      ∃ s1, fromFileLoop env filters stb entries s acc = (.error dictChangedMsg, s1)) := by
  have hfe : filters.isEmpty = false := by
    cases filters with
    | nil => exact absurd rfl hne
    | cons a l => rfl
  intro entries
  induction entries with
  | nil =>
    intro s acc _
    constructor
    · intro _
      exact ⟨acc, s, rfl⟩
    · intro hex
      simp at hex
  | cons e rest ih =>
    intro s acc hwf
    have hwfe := hwf e (List.mem_cons_self _ _)
    have hwfr : ∀ x ∈ rest, entryWf env.rootDir x = true :=
      fun x hx => hwf x (List.mem_cons_of_mem _ hx)
    unfold entryWf at hwfe
    rw [Bool.and_eq_true] at hwfe
    obtain ⟨hparse, hpipe⟩ := hwfe
    rw [Option.isSome_iff_exists] at hparse
    obtain ⟨⟨r, p, m, v⟩, hp⟩ := hparse
    cases hval : e.2.valid with
    | false =>
      constructor
      · intro hcov
        simp only [fromFileLoop, hp, hval, Bool.not_false, if_true]
        exact (ih s acc hwfr).1 (fun x hx hv => hcov x (List.mem_cons_of_mem _ hx) hv)
      · intro hex
        simp only [fromFileLoop, hp, hval, Bool.not_false, if_true]
        obtain ⟨w, hw, hwv, hwc⟩ := hex
        rcases List.mem_cons.mp hw with hh | hh
        · subst hh
          rw [hval] at hwv
          exact absurd hwv (by simp)
        · exact (ih s acc hwfr).2 ⟨w, hh, hwv, hwc⟩
    | true =>
      rw [hval] at hpipe
      simp only [Bool.not_true, Bool.false_or] at hpipe
      rw [Option.isSome_iff_exists] at hpipe
      obtain ⟨blob, hblob⟩ := hpipe
      have hkeys := gather_keys e.2 blob r p
      cases hcov : keysCovered filters e.2 with
      | true =>
        -- every key of this entry is filtered: the deletion loop keeps the dict
        have hall : ∀ kv ∈ gather_model_info_data e.2 blob r p, memb kv.1 filters = true := by
          intro kv hkv
          have hk1 : kv.1 ∈ infoKeys blob := by
            rw [← hkeys]
            exact List.mem_map_of_mem Prod.fst hkv
          unfold keysCovered at hcov
          rw [hblob] at hcov
          exact List.all_eq_true.mp hcov kv.1 hk1
        have hiter := iterDel_ok filters (gather_model_info_data e.2 blob r p).length
          (gather_model_info_data e.2 blob r p) (gather_model_info_data e.2 blob r p) rfl hall
        constructor
        · intro hcovall
          simp only [fromFileLoop, hp, hval, Bool.not_true, Bool.false_eq_true, if_false,
            hblob, hfe, Bool.false_eq_true, if_false, hiter]
          exact (ih _ _ hwfr).1 (fun x hx hv => hcovall x (List.mem_cons_of_mem _ hx) hv)
        · intro hex
          simp only [fromFileLoop, hp, hval, Bool.not_true, Bool.false_eq_true, if_false,
            hblob, hfe, Bool.false_eq_true, if_false, hiter]
          obtain ⟨w, hw, hwv, hwc⟩ := hex
          rcases List.mem_cons.mp hw with hh | hh
          · subst hh
            rw [hcov] at hwc
            exact absurd hwc (by simp)
          · exact (ih _ _ hwfr).2 ⟨w, hh, hwv, hwc⟩
      | false =>
        -- some key of this entry is not filtered: the deletion loop raises
        have hexk : ∃ kv ∈ gather_model_info_data e.2 blob r p, memb kv.1 filters = false := by
          unfold keysCovered at hcov
          rw [hblob, List.all_eq_false] at hcov
          obtain ⟨k, hk, hkf⟩ := hcov
          rw [← hkeys] at hk
          obtain ⟨kv, hkv, hkveq⟩ := List.mem_map.mp hk
          refine ⟨kv, hkv, ?_⟩
          rw [hkveq]
          simp only [Bool.not_eq_true] at hkf
          exact hkf
        have hnod : ((gather_model_info_data e.2 blob r p).map Prod.fst).Nodup := by
          rw [hkeys]
          exact infoKeys_nodup blob
        have hiter := iterDel_err filters (gather_model_info_data e.2 blob r p)
          (gather_model_info_data e.2 blob r p) (gather_model_info_data e.2 blob r p).length
          rfl (fun kv h => h) hnod hexk
        constructor
        · intro hcovall
          have := hcovall e (List.mem_cons_self _ _) hval
          rw [hcov] at this
          exact absurd this (by simp)
        · intro _
          exact ⟨_, by
            simp only [fromFileLoop, hp, hval, Bool.not_true, Bool.false_eq_true, if_false,
              hblob, hfe, hiter]
            rfl⟩

/-- C9: with a non-empty `query_filters` set, `query_model_info_from_file`
raises `RuntimeError("dictionary changed size during iteration")` as soon
as a found model's reconstructed info has a field not listed in the
filters (the loop deletes keys from the dict while iterating over it);
it returns normally only when every field of every found model is listed
in the filters. -/
theorem query_filters_runtime_error (mi mv r pid : String) (filters : List String)
    (stb : Bool) (env : MigrationEnv) (s : Store)
    (hne : filters ≠ []) (hwf : wfStoreB env.rootDir s = true) :
    ((∀ e ∈ matchingFiles mi mv r pid s.files, e.2.valid = true →
        keysCovered filters e.2 = true) →
      ∃ out s1, query_model_info_from_file mi mv r pid filters stb env s = (.ok out, s1)) ∧
    ((∃ e ∈ matchingFiles mi mv r pid s.files, e.2.valid = true ∧
        keysCovered filters e.2 = false) →
      ∃ s1, query_model_info_from_file mi mv r pid filters stb env s
        = (.error dictChangedMsg, s1)) := by
  have hwfm : ∀ e ∈ matchingFiles mi mv r pid s.files, entryWf env.rootDir e = true := by
    intro e he
    have := (List.mem_filter.mp he).1
    exact List.all_eq_true.mp hwf e this
  have hloop := fromFileLoop_filters env filters stb hne
    (matchingFiles mi mv r pid s.files) s [] hwfm
  constructor
  · intro hcov
    obtain ⟨res, s1, hres⟩ := hloop.1 hcov
    by_cases h0 : res = []
    · refine ⟨(100, "Query model info failed, cannot find model from local model files.", []),
        s1, ?_⟩
      unfold query_model_info_from_file
      rw [hres]
      simp [h0]
    · refine ⟨(0, "Query model info from local model success.", res), s1, ?_⟩
      unfold query_model_info_from_file
      rw [hres]
      simp [h0]
  · intro hex
    obtain ⟨s1, hres⟩ := hloop.2 hex
    unfold query_model_info_from_file
    rw [hres]
    exact ⟨s1, rfl⟩

theorem query_filters_runtime_error_witness :
    ∃ s1, query_model_info_from_file "*" "*" "*" "*" ["train_runtime_conf"] false env0 stq
      = (.error dictChangedMsg, s1) :=
  (query_filters_runtime_error "*" "*" "*" "*" ["train_runtime_conf"] false env0 stq
    (by decide) (by decide)).2 (by decide)

/-- C5 (amended): a duplicate-key insert error (IntegrityError 1062) is
suppressed and logged by `save_model_info`, leaving the store unchanged
(no duplicated record); every other insert error propagates out of
`save_model_info` — but the query-from-file call site catches and logs
all backfill errors, so none of them propagates to the caller of the
query. -/
theorem backfill_error_containment :
    (∀ env s info, env.insertFault (mlmodelRow env.currentTime info) = none →
      (s.db.any (fun r0 => rowIdentity r0 == rowIdentity (mlmodelRow env.currentTime info)))
        = true →
      save_model_info env s info = .ok (none, s)) ∧
    (∀ env s info msg, env.insertFault (mlmodelRow env.currentTime info) = some (.other msg) →
      save_model_info env s info = .error msg) ∧
    (∀ env s info code msg,
      env.insertFault (mlmodelRow env.currentTime info) = some (.integrity code msg) →
      code ≠ 1062 → save_model_info env s info = .error msg) ∧
    (∀ mi mv r pid stb env s, wfStoreB env.rootDir s = true →
      ∃ out s1, query_model_info_from_file mi mv r pid [] stb env s = (.ok out, s1)) := by
  refine ⟨?_, ?_, ?_, ?_⟩
  · intro env s info hfault hdup
    simp [save_model_info, dbInsert, hfault, hdup]
  · intro env s info msg hfault
    simp [save_model_info, dbInsert, hfault]
  · intro env s info code msg hfault hcode
    simp [save_model_info, dbInsert, hfault, hcode]
  · intro mi mv r pid stb env s hwf
    have hwfm : ∀ e ∈ matchingFiles mi mv r pid s.files, entryWf env.rootDir e = true := by
      intro e he
      have := (List.mem_filter.mp he).1
      exact List.all_eq_true.mp hwf e this
    obtain ⟨res, s1, hres⟩ := fromFileLoop_nofilters_ok env stb
      (matchingFiles mi mv r pid s.files) s [] hwfm
    by_cases h0 : res = []
    · refine ⟨(100, "Query model info failed, cannot find model from local model files.", []),
        s1, ?_⟩
      unfold query_model_info_from_file
      rw [hres]
      simp [h0]
    · refine ⟨(0, "Query model info from local model success.", res), s1, ?_⟩
      unfold query_model_info_from_file
      rw [hres]
      simp [h0]

theorem backfill_error_containment_witness :
    save_model_info envBad stq infoX = .error "db down" :=
  backfill_error_containment.2.1 envBad stq infoX "db down" rfl

/-- C5 counterexample: a non-duplicate-key backfill error (`db down`)
makes `save_model_info` raise, yet `query_model_info_from_file` with
`save_to_db` catches it and still returns retcode 0 — the error does not
propagate to the caller of the query. -/
theorem backfill_error_swallowed_at_query :
    save_model_info envBad stq infoX = .error "db down" ∧
    (query_model_info_from_file "*" "*" "*" "*" [] true envBad stq).1
      = .ok (0, "Query model info from local model success.", [infoX]) := by
  constructor
  · rfl
  · rfl

theorem find?_replace_of_any (l : List ((String × String) × SavedModel))
    (p v : String) (m : SavedModel)
    (h : l.any (fun e => e.1.1 == p && e.1.2 == v) = true) :
    (l.map (fun e => if e.1.1 == p && e.1.2 == v then ((p, v), m) else e)).find?
      (fun e => e.1.1 == p && e.1.2 == v) = some ((p, v), m) := by
  induction l with
  | nil => simp at h
  | cons e rest ih =>
    by_cases he : (e.1.1 == p && e.1.2 == v) = true
    · simp only [List.map_cons, if_pos he]
      rw [List.find?_cons_of_pos _ (by simp)]
    · simp only [List.map_cons, if_neg he]
      rw [List.find?_cons_of_neg _ (by simpa using he)]
      apply ih
      simp only [List.any_cons, Bool.or_eq_true] at h
      rcases h with h1 | h2
      · exact absurd h1 he
      · exact h2

theorem getEntry_setEntry_same (s : Store) (p v : String) (m : SavedModel) :
    getEntry (setEntry s p v m) p v = some m := by
  unfold getEntry setEntry
  by_cases h : s.files.any (fun e => e.1.1 == p && e.1.2 == v) = true
  · simp only [h, if_true]
    rw [find?_replace_of_any s.files p v m h]
    rfl
  · rw [Bool.not_eq_true] at h
    simp only [h, Bool.false_eq_true, if_false]
    rw [List.find?_append]
    have hnone : s.files.find? (fun e => e.1.1 == p && e.1.2 == v) = none := by
      rw [List.find?_eq_none]
      intro x hx
      intro hpx
      have : s.files.any (fun e => e.1.1 == p && e.1.2 == v) = true :=
        List.any_eq_true.mpr ⟨x, hx, hpx⟩
      rw [h] at this
      exact absurd this (by simp)
    rw [hnone]
    simp

theorem pred2_false_of_pred {x : (String × String) × SavedModel} {p v p2 v2 : String}
    (hx : (x.1.1 == p && x.1.2 == v) = true) (h : ¬(p2 = p ∧ v2 = v)) :
    (x.1.1 == p2 && x.1.2 == v2) = false := by
  cases hb : (x.1.1 == p2 && x.1.2 == v2) with
  | false => rfl
  | true =>
    rw [Bool.and_eq_true, beq_iff_eq, beq_iff_eq] at hb hx
    exact absurd ⟨hb.1.symm.trans hx.1, hb.2.symm.trans hx.2⟩ h

theorem find?_replace_other (l : List ((String × String) × SavedModel))
    (p v : String) (m : SavedModel) (p2 v2 : String) (h : ¬(p2 = p ∧ v2 = v)) :
    (l.map (fun e => if e.1.1 == p && e.1.2 == v then ((p, v), m) else e)).find?
      (fun e => e.1.1 == p2 && e.1.2 == v2)
    = l.find? (fun e => e.1.1 == p2 && e.1.2 == v2) := by
  induction l with
  | nil => rfl
  | cons e rest ih =>
    by_cases he : (e.1.1 == p && e.1.2 == v) = true
    · have h2e := pred2_false_of_pred he h
      have h2m : (p == p2 && v == v2) = false := by
        simpa using pred2_false_of_pred (x := ((p, v), m)) (by simp) h
      simp only [List.map_cons, if_pos he, List.find?_cons, h2m, h2e]
      exact ih
    · simp only [List.map_cons, if_neg he]
      cases h2 : (e.1.1 == p2 && e.1.2 == v2) with
      | true => simp only [List.find?_cons, h2]
      | false =>
        simp only [List.find?_cons, h2]
        exact ih

theorem getEntry_setEntry_other (s : Store) (p v : String) (m : SavedModel)
    (p2 v2 : String) (h : ¬(p2 = p ∧ v2 = v)) :
    getEntry (setEntry s p v m) p2 v2 = getEntry s p2 v2 := by
  unfold getEntry setEntry
  by_cases hany : s.files.any (fun e => e.1.1 == p && e.1.2 == v) = true
  · simp only [hany, if_true, find?_replace_other s.files p v m p2 v2 h]
  · rw [Bool.not_eq_true] at hany
    simp only [hany, Bool.false_eq_true, if_false]
    rw [List.find?_append]
    have hone : List.find? (fun e => e.1.1 == p2 && e.1.2 == v2) [((p, v), m)] = none := by
      have h2m := pred2_false_of_pred (x := ((p, v), m)) (by simp) h
      simp [List.find?_cons, h2m]
    rw [hone]
    cases hf : s.files.find? (fun e => e.1.1 == p2 && e.1.2 == v2) <;> simp [hf, Option.orElse]

theorem setEntry_db (s : Store) (p v : String) (m : SavedModel) :
    (setEntry s p v m).db = s.db := rfl

theorem readPipelineModel_saveComponentModel (s : Store)
    (p v n mo a buf rp : String) (p2 v2 : String) :
    readPipelineModel (saveComponentModel s p v n mo a buf rp) p2 v2
      = readPipelineModel s p2 v2 := by
  unfold readPipelineModel saveComponentModel
  by_cases h : p2 = p ∧ v2 = v
  · obtain ⟨hp, hv⟩ := h
    subst hp
    subst hv
    rw [getEntry_setEntry_same]
    cases hc : getEntry s p2 v2 with
    | none => simp [hc, Option.bind]
    | some sm => simp [hc, Option.bind]
  · rw [getEntry_setEntry_other s p v _ p2 v2 h]

theorem readComponentModel_saveComponentModel_other (s : Store)
    (p v n mo a buf rp : String) (p2 v2 n2 a2 : String) (h : ¬(p2 = p ∧ v2 = v)) :
    readComponentModel (saveComponentModel s p v n mo a buf rp) p2 v2 n2 a2
      = readComponentModel s p2 v2 n2 a2 := by
  unfold readComponentModel saveComponentModel
  rw [getEntry_setEntry_other s p v _ p2 v2 h]

theorem readPipelineModel_savePipelineModel_same (s : Store) (p v : String)
    (b : PipelineBlob) :
    readPipelineModel (savePipelineModel s p v b) p v = some b := by
  unfold readPipelineModel savePipelineModel
  rw [getEntry_setEntry_same]
  rfl

theorem readPipelineModel_genModelImportConfig (s : Store) (p v p2 v2 : String) :
    readPipelineModel (genModelImportConfig s p v) p2 v2 = readPipelineModel s p2 v2 := by
  unfold readPipelineModel genModelImportConfig
  by_cases h : p2 = p ∧ v2 = v
  · obtain ⟨hp, hv⟩ := h
    subst hp
    subst hv
    rw [getEntry_setEntry_same]
    cases hc : getEntry s p2 v2 with
    | none => simp [hc, Option.bind]
    | some sm => simp [hc, Option.bind]
  · rw [getEntry_setEntry_other s p v _ p2 v2 h]

theorem readPipelineModel_packagingModel (s : Store) (p v p2 v2 : String) :
    readPipelineModel (packagingModel s p v) p2 v2 = readPipelineModel s p2 v2 := by
  unfold readPipelineModel packagingModel
  by_cases h : p2 = p ∧ v2 = v
  · obtain ⟨hp, hv⟩ := h
    subst hp
    subst hv
    rw [getEntry_setEntry_same]
    cases hc : getEntry s p2 v2 with
    | none => simp [hc, Option.bind]
    | some sm => simp [hc, Option.bind]
  · rw [getEntry_setEntry_other s p v _ p2 v2 h]

theorem save_model_info_files (env : MigrationEnv) (s : Store) (info : ModelInfo)
    {rs : Option DbRow × Store} (h : save_model_info env s info = .ok rs) :
    rs.2.files = s.files := by
  simp only [save_model_info] at h
  cases hi : dbInsert env s.db (mlmodelRow env.currentTime info) with
  | ok db1 =>
    rw [hi] at h
    simp only [Except.ok.injEq] at h
    rw [← h]
  | error e =>
    rw [hi] at h
    cases e with
    | integrity code msg =>
      by_cases hc : (code != 1062) = true
      · simp [hc] at h
      · simp only [Bool.not_eq_true] at hc
        simp only [hc, Bool.false_eq_true, if_false, Except.ok.injEq] at h
        rw [← h]
    | other msg => simp at h

theorem gather_and_save_files (env : MigrationEnv) (s : Store)
    (pmid ver r p : String) {s2 : Store}
    (h : gather_and_save_model_info env s pmid ver r p = .ok s2) :
    s2.files = s.files := by
  cases hg : getEntry s pmid ver with
  | none => simp [gather_and_save_model_info, hg] at h
  | some sm =>
    cases hp : sm.pipeline with
    | none => simp [gather_and_save_model_info, hg, hp] at h
    | some blob =>
      simp only [gather_and_save_model_info, hg, hp] at h
      cases hs : save_model_info env s (gather_model_info_data sm blob r p) with
      | ok rs =>
        rw [hs] at h
        simp only [Except.map, Except.ok.injEq] at h
        have hfiles := save_model_info_files env s _ hs
        rw [← h]
        exact hfiles
      | error e => rw [hs] at h; simp [Except.map] at h

theorem readPipelineModel_eq_of_files {s1 s2 : Store} (h : s1.files = s2.files)
    (p v : String) : readPipelineModel s1 p v = readPipelineModel s2 p v := by
  unfold readPipelineModel getEntry
  rw [h]

theorem migrateComponentsLoop_pipeline (env : MigrationEnv) (cfg : MigrateConfig) :
    ∀ (rows : List MetaRow) (s : Store) (t : List MEvent) (p2 v2 : String),
    readPipelineModel (migrateComponentsLoop env cfg rows s t).2.1 p2 v2
      = readPipelineModel s p2 v2 := by
  intro rows
  induction rows with
  | nil => intro s t p2 v2; rfl
  | cons row rest ih =>
    intro s t p2 v2
    unfold migrateComponentsLoop
    cases h : readComponentModel s (srcPartyModelId cfg) cfg.model_version
        row.f_component_name row.f_model_alias with
    | none => simp only [h]
    | some comp =>
      cases hrl : migrateRoleLists cfg with
      | error e => simp only [h, hrl]
      | ok lists =>
        simp only [h, hrl]
        rw [ih]
        exact readPipelineModel_saveComponentModel _ _ _ _ _ _ _ _ p2 v2

theorem migrateRoleLists_ok_of_present (cfg : MigrateConfig)
    (h : rolesKeysPresent cfg) : ∃ v, migrateRoleLists cfg = .ok v := by
  obtain ⟨h1, h2, h3, h4⟩ := h
  rw [Option.isSome_iff_exists] at h1 h2 h3 h4
  obtain ⟨og, hog⟩ := h1
  obtain ⟨ng, hng⟩ := h2
  obtain ⟨oh, hoh⟩ := h3
  obtain ⟨nh, hnh⟩ := h4
  exact ⟨(og, ng, oh, nh), by simp [migrateRoleLists, hog, hng, hoh, hnh]⟩

theorem migrateComponentsLoop_ok (env : MigrationEnv) (cfg : MigrateConfig)
    (hkey : ¬(srcPartyModelId cfg = newPartyModelId cfg ∧
      cfg.model_version = cfg.unify_model_version))
    {lists : List Int × List Int × List Int × List Int}
    (hrl : migrateRoleLists cfg = .ok lists) :
    ∀ (rows : List MetaRow) (s : Store) (t : List MEvent),
    (∀ row ∈ rows, (readComponentModel s (srcPartyModelId cfg) cfg.model_version
      row.f_component_name row.f_model_alias).isSome = true) →
    ∃ s2 t2, migrateComponentsLoop env cfg rows s t = (.ok (), s2, t2) := by
  intro rows
  induction rows with
  | nil =>
    intro s t _
    exact ⟨s, t, rfl⟩
  | cons row rest ih =>
    intro s t hall
    have h1 := hall row (List.mem_cons_self _ _)
    rw [Option.isSome_iff_exists] at h1
    obtain ⟨comp, hc⟩ := h1
    unfold migrateComponentsLoop
    simp only [hc, hrl]
    apply ih
    intro r2 hr2
    rw [readComponentModel_saveComponentModel_other _ _ _ _ _ _ _ _ _ _ _ _ hkey]
    exact hall r2 (List.mem_cons_of_mem _ hr2)

theorem migrationSync_disabled (cfg : MigrateConfig) (env : MigrationEnv) (s : Store)
    (hms : env.enableModelStore = false) : migrationSync cfg env s = (s, []) := by
  simp [migrationSync, hms]

theorem save_model_info_ok_of_no_fault (env : MigrationEnv) (s : Store) (info : ModelInfo)
    (hfault : env.insertFault (mlmodelRow env.currentTime info) = none) :
    ∃ rs, save_model_info env s info = .ok rs := by
  simp only [save_model_info, dbInsert]
  rw [hfault]
  by_cases hdup : (s.db.any (fun r0 =>
      rowIdentity r0 == rowIdentity (mlmodelRow env.currentTime info))) = true
  · simp [hdup]
  · rw [Bool.not_eq_true] at hdup
    simp [hdup]

theorem migration_body_success (cfg : MigrateConfig) (env : MigrationEnv) (s : Store)
    (hms : env.enableModelStore = false)
    (hsrc : sourceComplete s cfg)
    (hdb : dbHasIdentity s.db cfg.local_role (toString cfg.local_party_id)
      cfg.model_id cfg.unify_model_version = false)
    (hfault : ∀ r, env.insertFault r = none)
    (hkp : rolesKeysPresent cfg)
    (hkey : ¬(srcPartyModelId cfg = newPartyModelId cfg ∧
      cfg.model_version = cfg.unify_model_version)) :
    ∃ d s6 t6, migration_body cfg env s = (.ok d, s6, t6) := by
  obtain ⟨hex, hpipe, hcomp⟩ := hsrc
  have hsync := migrationSync_disabled cfg env s hms
  obtain ⟨lists, hrl⟩ := migrateRoleLists_ok_of_present cfg hkp
  obtain ⟨s2, t2, hloop⟩ := migrateComponentsLoop_ok env cfg hkey hrl
    (defineMetaRows s (srcPartyModelId cfg) cfg.model_version) s [MEvent.dbCheck] hcomp
  have hpp : readPipelineModel s2 (srcPartyModelId cfg) cfg.model_version
      = readPipelineModel s (srcPartyModelId cfg) cfg.model_version := by
    have := migrateComponentsLoop_pipeline env cfg
      (defineMetaRows s (srcPartyModelId cfg) cfg.model_version) s [MEvent.dbCheck]
      (srcPartyModelId cfg) cfg.model_version
    rw [hloop] at this
    exact this
  rw [Option.isSome_iff_exists] at hpipe
  obtain ⟨pb, hpb⟩ := hpipe
  have hgather : ∃ s5, gather_and_save_model_info env
      (genModelImportConfig (savePipelineModel s2 (newPartyModelId cfg)
        cfg.unify_model_version (migratedBlob cfg pb))
        (newPartyModelId cfg) cfg.unify_model_version)
      (newPartyModelId cfg) cfg.unify_model_version
      cfg.local_role (toString cfg.local_party_id) = .ok s5 := by
    have hread : readPipelineModel
        (genModelImportConfig (savePipelineModel s2 (newPartyModelId cfg)
          cfg.unify_model_version (migratedBlob cfg pb))
          (newPartyModelId cfg) cfg.unify_model_version)
        (newPartyModelId cfg) cfg.unify_model_version = some (migratedBlob cfg pb) := by
      rw [readPipelineModel_genModelImportConfig]
      exact readPipelineModel_savePipelineModel_same _ _ _ _
    unfold readPipelineModel at hread
    obtain ⟨sm, hsm, hsmp⟩ := Option.bind_eq_some.mp hread
    simp only [gather_and_save_model_info, hsm, hsmp]
    obtain ⟨rs, hrs⟩ := save_model_info_ok_of_no_fault env
      (genModelImportConfig (savePipelineModel s2 (newPartyModelId cfg)
        cfg.unify_model_version (migratedBlob cfg pb))
        (newPartyModelId cfg) cfg.unify_model_version)
      (gather_model_info_data sm (migratedBlob cfg pb) cfg.local_role
        (toString cfg.local_party_id))
      (hfault _)
    rw [hrs]
    exact ⟨rs.2, by simp [Except.map]⟩
  obtain ⟨s5, hs5⟩ := hgather
  unfold migration_body
  rw [hsync]
  simp only [hex, Bool.not_true, Bool.false_eq_true, if_false, hdb, List.nil_append,
    hloop, hpp, hpb, hs5]
  exact ⟨_, _, _, rfl⟩

theorem migration_body_ok_pipeline (cfg : MigrateConfig) (env : MigrationEnv) (s : Store)
    (d : MigOk) (s6 : Store) (t6 : List MEvent)
    (h : migration_body cfg env s = (.ok d, s6, t6)) :
    ∃ pb, readPipelineModel (migrationSync cfg env s).1 (srcPartyModelId cfg)
        cfg.model_version = some pb ∧
      readPipelineModel s6 (newPartyModelId cfg) cfg.unify_model_version
        = some (migratedBlob cfg pb) := by
  simp only [migration_body] at h
  split at h
  · simp at h
  · split at h
    · simp at h
    · split at h
      · simp at h
      · rename_i hloop
        split at h
        · simp at h
        · rename_i pb hpb
          split at h
          · simp at h
          · rename_i s5 hgather
            simp only [Prod.mk.injEq, Except.ok.injEq] at h
            obtain ⟨hd, hs6, ht6⟩ := h
            refine ⟨pb, ?_, ?_⟩
            · rw [← hpb]
              have := migrateComponentsLoop_pipeline env cfg
                (defineMetaRows (migrationSync cfg env s).1 (srcPartyModelId cfg)
                  cfg.model_version)
                (migrationSync cfg env s).1 ((migrationSync cfg env s).2 ++ [MEvent.dbCheck])
                (srcPartyModelId cfg) cfg.model_version
              rw [hloop] at this
              exact this.symm
            · rw [← hs6, readPipelineModel_packagingModel,
                readPipelineModel_eq_of_files (gather_and_save_files env _ _ _ _ _ hgather),
                readPipelineModel_genModelImportConfig]
              exact readPipelineModel_savePipelineModel_same _ _ _ _

/-- C6: on every successful migration, the stored pipeline blob's
embedded role and initiator are the config's migrate_role and
migrate_initiator, its model id and model version are the newly
generated id and the unify model version, and its `initiator_role` /
`initiator_party_id` fields are additionally overwritten if and only if
the blob's FATE version is greater than 1.5.0. -/
theorem migration_pipeline_blob_update (cfg : MigrateConfig) (env : MigrationEnv)
    (s : Store) (orig : PipelineBlob)
    (hzero : (migration cfg env s).1.1 = 0)
    (horig : readPipelineModel (migrationSync cfg env s).1 (srcPartyModelId cfg)
      cfg.model_version = some orig) :
    ∃ saved, readPipelineModel (migration cfg env s).2.1 (newPartyModelId cfg)
        cfg.unify_model_version = some saved ∧
      saved.train_runtime_conf.role = cfg.migrate_role ∧
      saved.train_runtime_conf.initiator = cfg.migrate_initiator ∧
      saved.model_id = newModelId cfg ∧
      saved.model_version = cfg.unify_model_version ∧
      (compare_version orig.fate_version "1.5.0" = "gt" →
        saved.initiator_role = cfg.migrate_initiator.role ∧
        saved.initiator_party_id = cfg.migrate_initiator.party_id) ∧
      (compare_version orig.fate_version "1.5.0" ≠ "gt" →
        saved.initiator_role = orig.initiator_role ∧
        saved.initiator_party_id = orig.initiator_party_id) := by
  rcases hbody : migration_body cfg env s with ⟨res, s6, t6⟩
  cases res with
  | error e =>
    rw [migration, hbody] at hzero
    simp at hzero
  | ok d =>
    have hst : (migration cfg env s).2.1 = s6 := by
      rw [migration, hbody]
    obtain ⟨pb, hpb, hsaved⟩ := migration_body_ok_pipeline cfg env s d s6 t6 hbody
    rw [horig] at hpb
    obtain rfl : orig = pb := by injection hpb
    refine ⟨migratedBlob cfg orig, by rw [hst]; exact hsaved, ?_, ?_, ?_, ?_, ?_, ?_⟩
    · rfl
    · rfl
    · rfl
    · rfl
    · intro hgt
      unfold migratedBlob
      simp [hgt]
    · intro hgt
      have hgt2 : (compare_version orig.fate_version "1.5.0" == "gt") = false := by
        simp [hgt]
      unfold migratedBlob
      simp [hgt2]

theorem migration_pipeline_blob_update_witness :
    ∃ saved, readPipelineModel (migration cfg0 env0 st0).2.1 (newPartyModelId cfg0)
        cfg0.unify_model_version = some saved ∧
      saved.train_runtime_conf.role = cfg0.migrate_role ∧
      saved.train_runtime_conf.initiator = cfg0.migrate_initiator ∧
      saved.model_id = newModelId cfg0 ∧
      saved.model_version = cfg0.unify_model_version ∧
      (compare_version blob0.fate_version "1.5.0" = "gt" →
        saved.initiator_role = cfg0.migrate_initiator.role ∧
        saved.initiator_party_id = cfg0.migrate_initiator.party_id) ∧
      (compare_version blob0.fate_version "1.5.0" ≠ "gt" →
        saved.initiator_role = blob0.initiator_role ∧
        saved.initiator_party_id = blob0.initiator_party_id) :=
  migration_pipeline_blob_update cfg0 env0 st0 blob0 rfl rfl

/-- C8 (amended): with the source model present, the unify version
unoccupied, the role dicts carrying the guest and host entries the
component loop indexes, a benign environment, and a unify model version
different from the source model version, a migration whose migrate_role
equals the source role data succeeds, and the resulting
(model id, model version) identity differs from the source's. -/
theorem migration_identity_distinct (cfg : MigrateConfig) (env : MigrationEnv) (s : Store)
    (hms : env.enableModelStore = false)
    (hrole : cfg.migrate_role = cfg.role)
    (hsrc : sourceComplete s cfg)
    (hdb : dbHasIdentity s.db cfg.local_role (toString cfg.local_party_id)
      cfg.model_id cfg.unify_model_version = false)
    (hfault : ∀ r, env.insertFault r = none)
    (hkp : rolesKeysPresent cfg)
    (hver : cfg.unify_model_version ≠ cfg.model_version) :
    (migration cfg env s).1.1 = 0 ∧
    migration_new_identity cfg ≠ migration_source_identity cfg := by
  have hkey : ¬(srcPartyModelId cfg = newPartyModelId cfg ∧
      cfg.model_version = cfg.unify_model_version) := by
    rintro ⟨_, h2⟩
    exact hver h2.symm
  obtain ⟨d, s6, t6, hbody⟩ :=
    migration_body_success cfg env s hms hsrc hdb hfault hkp hkey
  constructor
  · rw [migration, hbody]
  · intro he
    unfold migration_new_identity migration_source_identity at he
    exact hver (congrArg Prod.snd he)

theorem migration_identity_distinct_witness :
    (migration cfg0b env0 st0).1.1 = 0 ∧
    migration_new_identity cfg0b ≠ migration_source_identity cfg0b :=
  migration_identity_distinct cfg0b env0 st0 rfl rfl
    ⟨rfl, rfl, by decide⟩ rfl (fun _ => rfl) ⟨rfl, rfl, rfl, rfl⟩ (by decide)

/-- C8 counterexample: a migration config with role data identical to
the source, the source model present, and the unify model version
unoccupied in the database, for which migration succeeds yet the
resulting (model id, model version) identity equals the source's —
because the unify model version equals the source model version and the
source model id already equals `gen_model_id(role)`. -/
theorem migration_identity_can_coincide :
    cfg8.migrate_role = cfg8.role ∧
    sourceComplete st0 cfg8 ∧
    dbHasIdentity st0.db cfg8.local_role (toString cfg8.local_party_id)
      cfg8.model_id cfg8.unify_model_version = false ∧
    (migration cfg8 env0 st0).1.1 = 0 ∧
    migration_new_identity cfg8 = migration_source_identity cfg8 := by
  refine ⟨rfl, ⟨rfl, rfl, by decide⟩, rfl, ?_, ?_⟩
  · rfl
  · rfl

end FateFlow
